import Mathlib

/-!
Verification development for `electricitylci/olca_jsonld_writer.py`.

The module under study turns loosely structured Python dictionaries (process
descriptions) into typed olca-schema root entities, deduplicated by identifier
in an in-memory registry (`dict_s` / `spec_map`), and merges the result into a
JSON-LD zip archive.

Shallow embedding conventions used throughout this file:

* Python values are modelled by the inductive `PyVal` (dictionaries carry
  string keys, as every dictionary literal in the source does).
* Python floats are modelled as exact decimal mantissa/exponent pairs
  (`PyNum.dec m e`, meaning `m * 10^e`) together with `nan` and signed
  infinities.  The source never performs float arithmetic: it only parses,
  stores, rounds and compares numbers, and all of those operations are exact
  on decimal literals.
* Python exceptions are modelled with `Except String`; the string carries the
  exception class of the corresponding CPython error.
* Impure inputs of the module (the `uuid.uuid3` digest, the
  `olca_schema.units` lookup tables, the current date and the package version
  constant) are collected in an `Env` record that is passed explicitly.
* Source functions have a leading underscore (`_val`, `_uid`, ...) which Lean
  does not allow in declaration names; the underscore is dropped and the rest
  of the name is kept verbatim.
-/

namespace Elci

/-! ## Python numbers

`PyNum.dec m e` models the float (or int) with exact value `m * 10 ^ e`.
-/

inductive PyNum where
  | dec (m : Int) (e : Int)
  | nan
  | inf (neg : Bool)
deriving DecidableEq, Repr

/-- Equality test of two decimal values `m1 * 10^e1 = m2 * 10^e2`, performed
with integer arithmetic by rescaling both to the smaller exponent. -/
def decEqVal (m1 e1 m2 e2 : Int) : Bool :=
  let d := min e1 e2
  m1 * (10 : Int) ^ (e1 - d).toNat = m2 * (10 : Int) ^ (e2 - d).toNat

/-- Python `==` on numbers: `nan` is not equal to anything (including itself),
infinities compare by sign, finite values compare by exact value. -/
def pyNumEq : PyNum → PyNum → Bool
  | .dec m1 e1, .dec m2 e2 => decEqVal m1 e1 m2 e2
  | .inf a, .inf b => a = b
  | _, _ => false

/-- Rational semantics of a decimal mantissa/exponent pair (proof layer only). -/
def decVal (m e : Int) : ℚ := (m : ℚ) * (10 : ℚ) ^ e

/-! ## Python strings

String helpers used by `_uid` and friends.  They operate on the underlying
character list so that every operation reduces inside the kernel.  As in the
source, only the ASCII fragment matters for the data this module handles.
-/

/-- Python `str.strip()`: drop whitespace from both ends. -/
def pyStrip (s : String) : String :=
  ⟨((s.data.dropWhile Char.isWhitespace).reverse.dropWhile Char.isWhitespace).reverse⟩

/-- Python `str.lower()` (ASCII fragment). -/
def pyLower (s : String) : String := ⟨s.data.map Char.toLower⟩

/-- Python `sep.join(xs)`. -/
def strJoin (sep : String) : List String → String
  | [] => ""
  | [x] => x
  | x :: y :: t => x ++ sep ++ strJoin sep (y :: t)

/-- Membership of `sub` as a contiguous substring of `hay`
(Python `sub in hay`). -/
def strHasSub (hay sub : List Char) : Bool :=
  match hay with
  | [] => sub.isEmpty
  | _ :: t => sub.isPrefixOf hay || strHasSub t sub

/-- Python `sub in hay` on strings. -/
def pyIn (sub hay : String) : Bool := strHasSub hay.data sub.data

/-! ## Python values -/

mutual
/-- Model of a Python value as handled by the writer module. -/
inductive PyVal where
  | none
  | str (s : String)
  | num (n : PyNum)
  | bool (b : Bool)
  | dict (es : PyDict)
  | list (es : PyArr)
/-- A Python dictionary with string keys (all dictionaries handled by the
module are JSON-shaped, so keys are strings), in insertion order. -/
inductive PyDict where
  | dnil
  | dcons (k : String) (v : PyVal) (rest : PyDict)
/-- A Python list. -/
inductive PyArr where
  | anil
  | acons (v : PyVal) (rest : PyArr)
end

/-- Build a `PyDict` from a list of key/value pairs. -/
def pd : List (String × PyVal) → PyDict
  | [] => .dnil
  | (k, v) :: t => .dcons k v (pd t)

/-- Build a `PyArr` from a list of values. -/
def pa : List PyVal → PyArr
  | [] => .anil
  | v :: t => .acons v (pa t)

def PyArr.toList : PyArr → List PyVal
  | .anil => []
  | .acons v t => v :: PyArr.toList t

def PyDict.keys : PyDict → List String
  | .dnil => []
  | .dcons k _ t => k :: PyDict.keys t

/-- First value stored under key `k` (Python `d[k]` / `k in d`). -/
def PyDict.get? : PyDict → String → Option PyVal
  | .dnil, _ => Option.none
  | .dcons k v t, k2 => if k = k2 then some v else PyDict.get? t k2

/-- Python `d[k] = v`: replace the value in place when the key exists,
otherwise append the new pair at the end (dictionaries preserve
insertion order). -/
def PyDict.set : PyDict → String → PyVal → PyDict
  | .dnil, k, v => .dcons k v .dnil
  | .dcons k1 v1 t, k, v =>
    if k1 = k then .dcons k1 v t else .dcons k1 v1 (PyDict.set t k v)

/-- True boolean value of a Python bool. -/
def bnum (b : Bool) : PyNum := .dec (if b then 1 else 0) 0

mutual
/-- Python `==`.  Numbers and bools compare by numeric value, strings by
content, `None` only to itself, lists pointwise.  Dictionaries are compared
pointwise in insertion order (an order-sensitive approximation of the
order-insensitive Python dict equality; no code path in the module compares
two dictionaries). -/
def pyEq : PyVal → PyVal → Bool
  | .num a, .num b => pyNumEq a b
  | .num a, .bool b => pyNumEq a (bnum b)
  | .bool a, .num b => pyNumEq (bnum a) b
  | .bool a, .bool b => a = b
  | .none, .none => true
  | .str a, .str b => a = b
  | .dict a, .dict b => pyEqDict a b
  | .list a, .list b => pyEqArr a b
  | _, _ => false
def pyEqDict : PyDict → PyDict → Bool
  | .dnil, .dnil => true
  | .dcons k v t, .dcons k2 v2 t2 => k = k2 && pyEq v v2 && pyEqDict t t2
  | _, _ => false
def pyEqArr : PyArr → PyArr → Bool
  | .anil, .anil => true
  | .acons v t, .acons v2 t2 => pyEq v v2 && pyEqArr t t2
  | _, _ => false
end

/-- Python truthiness (`if x:`). -/
def pyTruthy : PyVal → Bool
  | .none => false
  | .str s => !s.isEmpty
  | .num (.dec m _) => !(m = 0)
  | .num .nan => true
  | .num (.inf _) => true
  | .bool b => b
  | .dict .dnil => false
  | .dict (.dcons _ _ _) => true
  | .list .anil => false
  | .list (.acons _ _) => true

/-- Discriminator for the `None` object (Python `x is None`). -/
def isNoneV : PyVal → Bool
  | .none => true
  | _ => false

/-! ## Python `str()` / `repr()` (the fragment used by `_uid`)

Only the string clause (`str(s) = s`) is ever exercised by the verified
claims; the remaining clauses render a reasonable approximation of CPython
output (numbers are rendered in mantissa/exponent form). -/

mutual
def pyRepr : PyVal → String
  | .none => "None"
  | .str s => "\x27" ++ s ++ "\x27"
  | .num (.dec m e) => if e = 0 then toString m else toString m ++ "e" ++ toString e
  | .num .nan => "nan"
  | .num (.inf b) => if b then "-inf" else "inf"
  | .bool b => if b then "True" else "False"
  | .dict es => "\x7b" ++ pyReprDict es ++ "\x7d"
  | .list es => "[" ++ pyReprArr es ++ "]"
def pyReprDict : PyDict → String
  | .dnil => ""
  | .dcons k v .dnil => "\x27" ++ k ++ "\x27: " ++ pyRepr v
  | .dcons k v t => "\x27" ++ k ++ "\x27: " ++ pyRepr v ++ ", " ++ pyReprDict t
def pyReprArr : PyArr → String
  | .anil => ""
  | .acons v .anil => pyRepr v
  | .acons v t => pyRepr v ++ ", " ++ pyReprArr t
end

/-- Python `str(x)`. -/
def pyStr : PyVal → String
  | .str s => s
  | v => pyRepr v

/-! ## Numeric parsing (Python `float`, `int`, `round`) -/

def digitsVal (cs : List Char) : Nat :=
  cs.foldl (fun acc c => acc * 10 + (c.toNat - 48)) 0

def allDigits (cs : List Char) : Bool := !cs.isEmpty && cs.all Char.isDigit

/-- Split a character list at every occurrence of `c` (Python `s.split(c)`). -/
def splitOnChar (c : Char) : List Char → List (List Char)
  | [] => [[]]
  | x :: t =>
    let r := splitOnChar c t
    if x = c then [] :: r
    else
      match r with
      | h :: t2 => (x :: h) :: t2
      | [] => [[x]]

/-- Parse an optional leading sign; returns the sign and the remaining input. -/
def takeSign : List Char → Int × List Char
  | '+' :: t => (1, t)
  | '-' :: t => (-1, t)
  | t => (1, t)

/-- Parse the decimal part `digits[.digits]` of a float literal into a
mantissa and a (non-positive) power-of-ten exponent. -/
def parseMantissa (cs : List Char) : Option (Nat × Int) :=
  match splitOnChar '.' cs with
  | [ip] => if allDigits ip then some (digitsVal ip, 0) else Option.none
  | [ip, fp] =>
    if (ip.all Char.isDigit && fp.all Char.isDigit) && !(ip.isEmpty && fp.isEmpty) then
      some (digitsVal (ip ++ fp), -(fp.length : Int))
    else Option.none
  | _ => Option.none

/-- Python `float(s)` on strings: `None` models a raised `ValueError`.
Recognizes an optional sign, `inf`/`infinity`/`nan` (case-insensitive) and
decimal literals with an optional fraction and exponent (the underscore
digit-separator extension is not modelled). -/
def pyFloat (s : String) : Option PyNum :=
  let cs := (pyStrip s).data.map Char.toLower
  let (sg, body) := takeSign cs
  if body = "inf".data ∨ body = "infinity".data then some (.inf (sg < 0))
  else if body = "nan".data then some .nan
  else
    match splitOnChar 'e' body with
    | [mant] =>
      match parseMantissa mant with
      | some (m, e) => some (.dec (sg * (m : Int)) e)
      | Option.none => Option.none
    | [mant, ex] =>
      match parseMantissa mant with
      | some (m, e) =>
        let (esg, edig) := takeSign ex
        if allDigits edig then some (.dec (sg * (m : Int)) (e + esg * (digitsVal edig : Int)))
        else Option.none
      | Option.none => Option.none
    | _ => Option.none

/-- Python `int(s)` on strings: optional sign and decimal digits only. -/
def pyIntOfStr (s : String) : Option Int :=
  let (sg, body) := takeSign (pyStrip s).data
  if allDigits body then some (sg * (digitsVal body : Int)) else Option.none

/-- Truncation toward zero of the decimal value `m * 10^e` (Python
`int(float)`). -/
def truncDec (m e : Int) : Int :=
  if 0 ≤ e then m * (10 : Int) ^ e.toNat else Int.tdiv m ((10 : Int) ^ (-e).toNat)

/-- Python `int(x)`: `None` models a raised error (callers catch it). -/
def pyInt : PyVal → Option Int
  | .num (.dec m e) => some (truncDec m e)
  | .num .nan => Option.none
  | .num (.inf _) => Option.none
  | .bool b => some (if b then 1 else 0)
  | .str s => pyIntOfStr s
  | _ => Option.none

/-- Python `round(x)` of the decimal value `m * 10^e`: round half to even. -/
def pyRoundDec (m e : Int) : Int :=
  if 0 ≤ e then m * (10 : Int) ^ e.toNat
  else
    let n := (10 : Int) ^ (-e).toNat
    let q := Int.ediv m n
    let r := Int.emod m n
    if 2 * r < n then q
    else if 2 * r > n then q + 1
    else if q % 2 = 0 then q else q + 1

/-! ## The `_val` helper (first found key wins, `None` falls back to the
default) -/

def valGo (dd : PyDict) : List String → PyVal
  | [] => .none
  | p :: t =>
    match dd.get? p with
    | some v => v
    | Option.none => valGo dd t

/-- Model of `_val(dict_d, *path)`: value of the first key of `path` present in the
dictionary; `None` when the input is not a dictionary or no key is present. -/
def val (d : PyVal) (path : List String) : PyVal :=
  match d with
  | .dict dd => valGo dd path
  | _ => .none

/-- Model of `_val(dict_d, *path, default=dflt)`: like `val`, but a `None` result is
replaced by the default. -/
def valD (d : PyVal) (path : List String) (dflt : PyVal) : PyVal :=
  match val d path with
  | .none => dflt
  | v => v

/-! ## `_uid` and `_uid_is_valid` -/

/-- The semantic path hashed by `_uid`: arguments are stripped, joined with a
forward slash and the whole path is lower-cased. -/
def uid_path (args : List String) : String :=
  pyLower (strJoin "/" (args.map pyStrip))

/-- Model of `str()` of the `olca_schema.ModelType` enum members passed to `_uid`. -/
def mtProcess : String := "ModelType.PROCESS"

def mtFlow : String := "ModelType.FLOW"

def mtLocation : String := "ModelType.LOCATION"

def mtActor : String := "ModelType.ACTOR"

def mtSource : String := "ModelType.SOURCE"

def mtDqSystem : String := "ModelType.DQ_SYSTEM"

def isHexLower (c : Char) : Bool :=
  ('0' ≤ c && c ≤ '9') || ('a' ≤ c && c ≤ 'f')

/-- Canonical 8-4-4-4-12 lower-case hexadecimal UUID layout. -/
def uuidCanonical (cs : List Char) : Bool :=
  decide (cs.length = 36) &&
    (List.range 36).all fun i =>
      let c := cs.getD i ' '
      if i = 8 ∨ i = 13 ∨ i = 18 ∨ i = 23 then c = '-' else isHexLower c

/-- Model of `_uid_is_valid(uuid_str, version)`: `uuid.UUID(uuid_str, version=version)`
forces the version and variant bits, so the final `str(uuid_obj) == uuid_str`
check succeeds exactly when the input is already a canonical lower-case UUID
string with the requested version nibble and an RFC 4122 variant; non-strings
raise and are caught (`False`), and versions outside 1..5 raise `ValueError`
(also caught). -/
def uid_is_valid (v : PyVal) (version : Nat) : Bool :=
  match v with
  | .str s =>
    let cs := s.data
    decide (1 ≤ version) && decide (version ≤ 5) && uuidCanonical cs &&
      (cs.getD 14 ' ' == Char.ofNat (48 + version)) &&
      ((cs.getD 19 ' ' == '8') || (cs.getD 19 ' ' == '9') ||
       (cs.getD 19 ' ' == 'a') || (cs.getD 19 ' ' == 'b'))
  | _ => false

/-! ## olca-schema entities (the fields the writer touches) -/

/-- A `Ref`: weak pointer to a root entity (`to_ref()` output). -/
structure Ref where
  refType : String
  id : PyVal
  name : PyVal
  category : PyVal

inductive FlowType where
  | ELEMENTARY_FLOW
  | PRODUCT_FLOW
  | WASTE_FLOW

inductive ProcessType where
  | UNIT_PROCESS
  | LCI_RESULT

/-- Model of `value` attribute of a `FlowType` member. -/
def FlowType.value : FlowType → String
  | .ELEMENTARY_FLOW => "ELEMENTARY_FLOW"
  | .PRODUCT_FLOW => "PRODUCT_FLOW"
  | .WASTE_FLOW => "WASTE_FLOW"

structure FlowProperty where
  id : PyVal
  name : PyVal

def FlowProperty.toRef (p : FlowProperty) : Ref :=
  ⟨"FlowProperty", p.id, p.name, .none⟩

structure Uncertainty where
  geomMean : PyVal
  geomSd : PyVal

structure Exchange where
  isQuantitativeReference : PyVal
  isInput : PyVal
  isAvoidedProduct : PyVal
  amount : PyVal
  dqEntry : Option String
  description : PyVal
  internalId : Nat
  unit : Option Ref
  flowProperty : Option Ref
  flow : Option Ref
  uncertainty : Option Uncertainty
  defaultProvider : Option Ref

structure Flow where
  id : PyVal
  name : PyVal
  flowType : Option FlowType
  category : String
  flowProperty : Option FlowProperty

def Flow.toRef (f : Flow) : Ref := ⟨"Flow", f.id, f.name, .str f.category⟩

structure Location where
  id : PyVal
  code : String
  name : String
  latitude : PyVal
  longitude : PyVal
  description : PyVal

def Location.toRef (l : Location) : Ref := ⟨"Location", l.id, .str l.name, .none⟩

structure Actor where
  id : PyVal
  name : String

def Actor.toRef (a : Actor) : Ref := ⟨"Actor", a.id, .str a.name, .none⟩

structure Source where
  id : PyVal
  category : String
  name : PyVal
  url : PyVal
  version : PyVal
  textReference : PyVal
  year : Int

def Source.toRef (s : Source) : Ref := ⟨"Source", s.id, s.name, .str s.category⟩

structure DQSystem where
  id : PyVal
  name : PyVal
  description : String

def DQSystem.toRef (d : DQSystem) : Ref := ⟨"DQSystem", d.id, d.name, .none⟩

/-- The fields copied verbatim by `_process_doc` (its `copy_fields` list). -/
def copyFields : List String :=
  ["timeDescription", "technologyDescription", "dataCollectionDescription",
   "completenessDescription", "dataSelectionDescription", "reviewDetails",
   "dataTreatmentDescription", "inventoryMethodDescription",
   "modelingConstantsDescription", "samplingDescription",
   "restrictionsDescription", "copyright", "intendedApplication",
   "projectDescription"]

structure ProcessDoc where
  copiedFields : List (String × PyVal)
  validFrom : Option String
  validUntil : Option String
  reviewer : Option Ref
  dataDocumentor : Option Ref
  dataGenerator : Option Ref
  dataSetOwner : Option Ref
  publication : Option Ref
  sources : List Ref
  creationDate : String

structure Process where
  id : PyVal
  name : PyVal
  category : PyVal
  version : PyVal
  description : PyVal
  processType : ProcessType
  location : Option Ref
  processDocumentation : Option ProcessDoc
  dqEntry : Option String
  dqSystem : Option Ref
  exchangeDqSystem : Option Ref
  exchanges : Option (List Exchange)

def Process.toRef (p : Process) : Ref := ⟨"Process", p.id, p.name, p.category⟩

/-! ## The root-entity registry (`dict_s` / `spec_map`) -/

/-- One entry of the root-entity dictionary: the parallel `ids` and `objs`
lists kept per entity type. -/
structure EntityReg (α : Type) where
  ids : List PyVal
  objs : List α

/-- Python `uid in ids`. -/
def pyContains (l : List PyVal) (u : PyVal) : Bool := l.any fun e => pyEq e u

/-- Model of `objs[ids.index(uid)]`: walk both lists in parallel; `none` either when
the identifier is absent or when its index falls outside `objs` (the latter
is an `IndexError` in Python — call sites distinguish the two cases with
`pyContains`). -/
def regGet {α : Type} (ids : List PyVal) (objs : List α) (u : PyVal) : Option α :=
  match ids, objs with
  | i :: it, o :: ot => if pyEq i u then some o else regGet it ot u
  | _, _ => Option.none

/-- Model of `ids.append(uid); objs.append(obj)`. -/
def EntityReg.push {α : Type} (r : EntityReg α) (u : PyVal) (o : α) : EntityReg α :=
  ⟨r.ids ++ [u], r.objs ++ [o]⟩

/-- The registries touched by the graph builder (the remaining root-entity
types of `_root_entity_dict` stay empty throughout a build and are omitted). -/
structure SpecMap where
  actor : EntityReg Actor
  dqsystem : EntityReg DQSystem
  flow : EntityReg Flow
  flowProperty : EntityReg FlowProperty
  location : EntityReg Location
  process : EntityReg Process
  source : EntityReg Source

def emptySpecMap : SpecMap :=
  ⟨⟨[], []⟩, ⟨[], []⟩, ⟨[], []⟩, ⟨[], []⟩, ⟨[], []⟩, ⟨[], []⟩, ⟨[], []⟩⟩

/-! ## The impure inputs of the module -/

/-- Deterministic external inputs: the `uuid.uuid3(NAMESPACE_OID, path)`
digest, the `olca_schema.units` lookup tables, the current timestamp/year and
the `elci_version` constant. -/
structure Env where
  hash : String → String
  unitRef : PyVal → Option Ref
  propRef : PyVal → Option Ref
  now : String
  year : Int
  version : String

/-- Model of `_uid(*args)` after `str()` has been applied to each argument. -/
def uid (env : Env) (args : List String) : String := env.hash (uid_path args)

/-! ## Leaf builders -/

/-- One entry of `_format_dq_entry`: kept verbatim for `n.a.`/`nan`, otherwise
`str(round(float(entry)))`, where `float` raises `ValueError` on an
unparseable string, `round` raises on `nan` (`ValueError`) and on infinities
(`OverflowError`). -/
def fmtNum (part : List Char) : Except String String :=
  if part = "n.a.".data ∨ part = "nan".data then pure ⟨part⟩
  else
    match pyFloat ⟨part⟩ with
    | Option.none => throw "ValueError: could not convert string to float"
    | some .nan => throw "ValueError: cannot convert float NaN to integer"
    | some (.inf _) => throw "OverflowError: cannot convert float infinity to integer"
    | some (.dec m e) => pure (toString (pyRoundDec m e))

/-- Model of `_format_dq_entry(entry)`: `None` for non-strings and trimmed strings of
length below two; otherwise strip outer parentheses, split on `;`, convert
each numeric entry and re-wrap in parentheses. -/
def format_dq_entry (entry : PyVal) : Except String (Option String) :=
  match entry with
  | .str s =>
    let e := pyStrip s
    if e.data.length < 2 then pure Option.none
    else do
      let body := ((e.data.reverse.dropWhile (fun c => c = ')')).reverse).dropWhile
        (fun c => c = '(')
      let parts ← (splitOnChar ';' body).mapM fmtNum
      pure (some ("(" ++ strJoin ";" parts ++ ")"))
  | _ => pure Option.none

def isLeap (y : Nat) : Bool := y % 4 = 0 && (y % 100 ≠ 0 || y % 400 = 0)

def daysIn (m y : Nat) : Nat :=
  if m = 2 then (if isLeap y then 29 else 28)
  else if m = 4 ∨ m = 6 ∨ m = 9 ∨ m = 11 then 30
  else 31

/-- Zero-pad the decimal rendering of `n` to width `w`. -/
def pad (w n : Nat) : String :=
  let s := toString n
  ⟨List.replicate (w - s.data.length) '0'⟩ ++ s

/-- Model of `_format_date(entry)`: parse `M/D/YYYY` (`strptime` with format
`%m/%d/%Y`) and render the ISO form `YYYY-MM-DDT00:00:00`; every parse or
type error is caught and yields `None`. -/
def format_date (entry : PyVal) : Option String :=
  match entry with
  | .str s =>
    match splitOnChar '/' s.data with
    | [ms, ds, ys] =>
      if allDigits ms && allDigits ds && allDigits ys &&
          decide (ms.length ≤ 2) && decide (ds.length ≤ 2) && decide (ys.length ≤ 4) then
        let m := digitsVal ms
        let d := digitsVal ds
        let y := digitsVal ys
        if decide (1 ≤ m) && decide (m ≤ 12) && decide (1 ≤ d) &&
            decide (d ≤ daysIn m y) && decide (1 ≤ y) then
          some (pad 4 y ++ "-" ++ pad 2 m ++ "-" ++ pad 2 d ++ "T00:00:00")
        else Option.none
      else Option.none
    | _ => Option.none
  | _ => Option.none

/-- Model of `_check_source_year(s_year)`: `int()` conversion with every failure caught
(defaulting to the current year), then a range check against
`current year + 1`. -/
def check_source_year (s_year : PyVal) (env : Env) : Int :=
  match pyInt s_year with
  | Option.none => env.year
  | some r => if r < 0 ∨ r > env.year + 1 then env.year else r

/-- Model of `_isnum(n)`: an `int`/`float` (bools are ints in Python) that is not
`nan`. -/
def isnum : PyVal → Bool
  | .num (.dec _ _) => true
  | .num .nan => false
  | .num (.inf _) => true
  | .bool _ => true
  | _ => false

/-- The string-to-float step of `_uncertainty`: only string inputs are
converted; an unparseable string raises `ValueError` (uncaught). -/
def toNumE (v : PyVal) : Except String PyVal :=
  match v with
  | .str s =>
    match pyFloat s with
    | some n => pure (.num n)
    | Option.none => throw "ValueError: could not convert string to float"
  | v => pure v

/-- Model of `_uncertainty(dict_d)`: `None` unless the record is a dictionary whose
distribution type equals the log-normal tag and whose geometric mean and
standard deviation are numeric (after converting numeric strings). -/
def uncertainty (dict_d : PyVal) : Except String (Option Uncertainty) :=
  match dict_d with
  | .dict _ =>
    if pyEq (val dict_d ["distributionType"])
        (.str "Logarithmic Normal Distribution") = false then pure Option.none
    else do
      let gmean ← toNumE (val dict_d ["geomMean"])
      let gsd ← toNumE (val dict_d ["geomSd"])
      if isnum gmean && isnum gsd then pure (some ⟨gmean, gsd⟩)
      else pure Option.none
  | _ => pure Option.none

/-- Model of `_unit(unit_name)`: unwrap an optional `{"name": ...}` dictionary (a
missing key is logged and replaced by the empty name) and look the name up in
the `olca_schema.units` table. -/
def unit (unit_name : PyVal) (env : Env) : Option Ref :=
  match unit_name with
  | .dict dd =>
    match dd.get? "name" with
    | some v => env.unitRef v
    | Option.none => env.unitRef (.str "")
  | v => env.unitRef v

/-- Lookup step of `_flow_property` once the unit name is available. -/
def flowPropGo (nm : PyVal) (s : SpecMap) (env : Env) :
    Except String (Option FlowProperty) :=
  match env.propRef nm with
  | Option.none => pure Option.none
  | some p_ref =>
    if pyContains s.flowProperty.ids p_ref.id then
      match regGet s.flowProperty.ids s.flowProperty.objs p_ref.id with
      | some obj => pure (some obj)
      | Option.none => throw "IndexError: list index out of range"
    else pure Option.none

/-- Model of `_flow_property(unit_name, dict_s)`: resolve the unit name (a dictionary
without a `name` key is logged and yields `None`), then return the stored
`FlowProperty` object whose identifier matches the catalog reference. -/
def flow_property (unit_name : PyVal) (s : SpecMap) (env : Env) :
    Except String (Option FlowProperty) :=
  match unit_name with
  | .dict dd =>
    match dd.get? "name" with
    | some v => flowPropGo v s env
    | Option.none => pure Option.none
  | v => flowPropGo v s env

/-- Model of `_flow_type(f_type)`: first `FlowType` member whose `value` equals the
argument. -/
def flow_type (f_type : PyVal) : Option FlowType :=
  if pyEq (.str FlowType.ELEMENTARY_FLOW.value) f_type then some .ELEMENTARY_FLOW
  else if pyEq (.str FlowType.PRODUCT_FLOW.value) f_type then some .PRODUCT_FLOW
  else if pyEq (.str FlowType.WASTE_FLOW.value) f_type then some .WASTE_FLOW
  else Option.none

/-- Model of `_flow(dict_d, flowprop, dict_s)`.  The third component of the result is
the flow record after the in-place `dict_d['flowType'] = "WASTE_FLOW"`
mutation (the caller keeps holding this dictionary). -/
def flow (dict_d : PyVal) (flowprop : Option FlowProperty) (s : SpecMap) (env : Env) :
    Except String (Option Ref × SpecMap × PyVal) :=
  match dict_d with
  | .dict dd =>
    let uid0 := val dict_d ["id", "@id"]
    let nameV := val dict_d ["name"]
    match valD dict_d ["category"] (.str "") with
    | .str category_path =>
      let is_waste := pyIn "waste" (pyLower category_path)
      if pyContains s.flow.ids uid0 then
        match regGet s.flow.ids s.flow.objs uid0 with
        | some fl => pure (some fl.toRef, s, dict_d)
        | Option.none => throw "IndexError: list index out of range"
      else
        let uid1 := if uid_is_valid uid0 3 || uid_is_valid uid0 4 then uid0
          else .str (uid env [mtFlow, category_path, pyStr nameV])
        let dd2 := if is_waste then dd.set "flowType" (.str "WASTE_FLOW") else dd
        let def_type := if is_waste then "WASTE_FLOW" else "ELEMENTARY_FLOW"
        let f_type := flow_type (valD (.dict dd2) ["flowType"] (.str def_type))
        let fl : Flow := ⟨uid1, nameV, f_type, category_path, flowprop⟩
        pure (some fl.toRef, {s with flow := s.flow.push uid1 fl}, .dict dd2)
    | _ => throw "AttributeError: object has no attribute lower"
  | _ => pure (Option.none, s, dict_d)

/-- Model of `_location(dict_d, dict_s)`: accepts a bare string (just a code), a
dictionary, or anything else (empty code, hence no location). -/
def location (dict_d : PyVal) (s : SpecMap) (env : Env) :
    Except String (Option Ref × SpecMap) :=
  let cu : PyVal × PyVal :=
    match dict_d with
    | .str c => (.str c, .none)
    | .dict _ => (val dict_d ["name"], val dict_d ["id", "@id"])
    | _ => (.str "", .str "")
  match cu.1 with
  | .str code =>
    if code = "" then pure (Option.none, s)
    else
      let uid1 := if uid_is_valid cu.2 3 then cu.2
        else .str (uid env [mtLocation, code])
      if pyContains s.location.ids uid1 then
        match regGet s.location.ids s.location.objs uid1 with
        | some loc => pure (some loc.toRef, s)
        | Option.none => throw "IndexError: list index out of range"
      else
        let loc : Location := ⟨uid1, code, code, val dict_d ["latitude"],
          val dict_d ["longitude"], val dict_d ["description"]⟩
        pure (some loc.toRef, {s with location := s.location.push uid1 loc})
  | _ => pure (Option.none, s)

/-- Model of `_actor(name, dict_s)`.  For a missing or empty name the source executes
`return None` — a bare `None` instead of the `(ref, dict_s)` tuple — which is
modelled by the outer `Option`; every caller immediately unpacks the result
as a pair and therefore raises `TypeError` on that value. -/
def actor (nameV : PyVal) (s : SpecMap) (env : Env) :
    Except String (Option (Ref × SpecMap)) :=
  match nameV with
  | .str nm =>
    if nm = "" then pure Option.none
    else
      let uidv : PyVal := .str (uid env [mtActor, nm])
      if pyContains s.actor.ids uidv then
        match regGet s.actor.ids s.actor.objs uidv with
        | some a => pure (some (a.toRef, s))
        | Option.none => throw "IndexError: list index out of range"
      else
        let a : Actor := ⟨uidv, nm⟩
        pure (some (a.toRef, {s with actor := s.actor.push uidv a}))
  | _ => pure Option.none

/-- Tuple unpacking of an `_actor` result (`doc.reviewer, dict_s = ...`). -/
def unpackActor (r : Option (Ref × SpecMap)) : Except String (Ref × SpecMap) :=
  match r with
  | some p => pure p
  | Option.none => throw "TypeError: cannot unpack non-iterable NoneType object"

/-- All-strings view of a Python list, as required by `"/".join`. -/
def strListOf : PyArr → Option (List String)
  | .anil => some []
  | .acons (.str s) t => (strListOf t).map fun l => s :: l
  | _ => Option.none

/-- Model of `"/".join(xs)`: raises `TypeError` when an element is not a string. -/
def joinStrs (ar : PyArr) : Except String String :=
  match strListOf ar with
  | some l => pure (strJoin "/" l)
  | Option.none => throw "TypeError: sequence item: expected str instance"

/-- Model of `_source(src_data, dict_s)`. -/
def source (src_data : PyVal) (s : SpecMap) (env : Env) :
    Except String (Option Ref × SpecMap) :=
  match src_data with
  | .dict dd =>
    match dd.get? "Name" with
    | Option.none => pure (Option.none, s)
    | some nameV =>
      if pyEq nameV (.str "") then pure (Option.none, s)
      else do
        let category ← (match dd.get? "Category" with
          | some (.list ar) => joinStrs ar
          | some (.str c) => pure c
          | some _ => pure ""
          | Option.none => pure "")
        let uidv : PyVal := .str (uid env [mtSource, category, pyStr nameV])
        if pyContains s.source.ids uidv then
          match regGet s.source.ids s.source.objs uidv with
          | some so => pure (some so.toRef, s)
          | Option.none => throw "IndexError: list index out of range"
        else
          let so : Source := ⟨uidv, category, nameV, val src_data ["Url"],
            valD src_data ["Version"] (.str env.version),
            valD src_data ["TextReference"] nameV,
            check_source_year (val src_data ["Year"]) env⟩
          pure (some so.toRef, {s with source := s.source.push uidv so})
  | _ => pure (Option.none, s)

/-- Loop body of `_source_list`: resolve each source, appending the non-null
references in order. -/
def sourceFold : List PyVal → SpecMap → Env → Except String (List Ref × SpecMap)
  | [], s, _ => pure ([], s)
  | d :: t, s, env => do
    let (r1, s1) ← source d s env
    let (rest, s2) ← sourceFold t s1 env
    match r1 with
    | some r => pure (r :: rest, s2)
    | Option.none => pure (rest, s2)

/-- Model of `_source_list(s_data, dict_s)`: a non-list or empty input is logged and
yields the empty list. -/
def source_list (s_data : PyVal) (s : SpecMap) (env : Env) :
    Except String (List Ref × SpecMap) :=
  match s_data with
  | .list .anil => pure ([], s)
  | .list ar => sourceFold ar.toList s env
  | _ => pure ([], s)

/-- Model of `_find_dq(dict_d, dict_key)`: look the key up on the record, falling back
to its `processDocumentation` sub-record while the result is falsy.  The
recursion descends through nested dictionaries; the fuel models the Python
recursion limit (its exhaustion is a `RecursionError`). -/
def find_dq (fuel : Nat) (dict_d : PyVal) (key : String) : Except String PyVal :=
  match fuel with
  | 0 => throw "RecursionError: maximum recursion depth exceeded"
  | n + 1 =>
    let dq := val dict_d [key]
    match dict_d with
    | .dict _ =>
      if pyTruthy dq then pure dq
      else find_dq n (val dict_d ["processDocumentation"]) key
    | _ => pure dq

/-- Model of `_dq_entry(dict_d)`. -/
def dq_entry (fuel : Nat) (dict_d : PyVal) : Except String (Option String) := do
  format_dq_entry (← find_dq fuel dict_d "dqEntry")

/-- Model of `_dq_system(dict_d, dict_s, dq_type)`. -/
def dq_system (fuel : Nat) (dict_d : PyVal) (s : SpecMap) (dq_type : String)
    (env : Env) : Except String (Option Ref × SpecMap) :=
  if ¬(dq_type = "dqSystem" ∨ dq_type = "exchangeDqSystem") then
    throw "ValueError: unexpected dq_type"
  else do
    let dq_desc := if dq_type = "exchangeDqSystem" then
      "An exchange data quality system entry." else
      "A process data quality system entry."
    let dq ← find_dq fuel dict_d dq_type
    match dq with
    | .dict _ =>
      let dq_id := val dq ["@id"]
      let dq_name := valD dq ["name"] (.str "none")
      if pyContains s.dqsystem.ids dq_id then
        match regGet s.dqsystem.ids s.dqsystem.objs dq_id with
        | some o => pure (some o.toRef, s)
        | Option.none => throw "IndexError: list index out of range"
      else
        let id1 := if uid_is_valid dq_id 4 then dq_id
          else .str (uid env [mtDqSystem, dq_type, pyStr dq_name])
        let o : DQSystem := ⟨id1, dq_name, dq_desc⟩
        pure (some o.toRef, {s with dqsystem := s.dqsystem.push id1 o})
    | _ => pure (Option.none, s)

/-- Model of `_process_doc(dict_d, dict_s)`: copy the flat descriptive fields, parse
the validity dates, resolve the four actor references (note that `_actor`
returns a bare `None` for missing names, so unpacking raises `TypeError`),
the publication and the source list, and stamp the creation date. -/
def process_doc (dict_d : PyVal) (s : SpecMap) (env : Env) :
    Except String (ProcessDoc × SpecMap) :=
  match dict_d with
  | .dict _ => do
    let copied := copyFields.map fun f => (f, val dict_d [f])
    let vfrom := format_date (val dict_d ["validFrom"])
    let vuntil := format_date (val dict_d ["validUntil"])
    let (rev, s1) ← unpackActor (← actor (val dict_d ["reviewer"]) s env)
    let (ddoc, s2) ← unpackActor (← actor (val dict_d ["dataDocumentor"]) s1 env)
    let (dgen, s3) ← unpackActor (← actor (val dict_d ["dataGenerator"]) s2 env)
    let (down, s4) ← unpackActor (← actor (val dict_d ["dataSetOwner"]) s3 env)
    let (pub, s5) ← source (val dict_d ["publication"]) s4 env
    let (srcs, s6) ← source_list (valD dict_d ["sources"] (.list .anil)) s5 env
    pure (⟨copied, vfrom, vuntil, some rev, some ddoc, some dgen, some down,
      pub, srcs, env.now⟩, s6)
  | _ => pure (⟨[], Option.none, Option.none, Option.none, Option.none,
      Option.none, Option.none, Option.none, [], env.now⟩, s)

/-- Model of `_find_ref_exchange(p)`: the last exchange whose quantitative-reference
flag is truthy (`None` when the exchange list is missing or empty). -/
def find_ref_exchange (p : Process) : Option Exchange :=
  match p.exchanges with
  | Option.none => Option.none
  | some es =>
    es.foldl (fun acc e => if pyTruthy e.isQuantitativeReference then some e else acc)
      Option.none

/-! ## The mutually recursive `_process` / `_exchange_list` / `_exchange`
cluster

The recursion (an exchange provider is itself a process description) is tied
through an explicit callback `prov`, and `process` decrements a fuel counter
at each provider level; exhausting the fuel models Python's recursion
limit. -/

/-- Type of the recursive `_process` entry point. -/
def ProcCall : Type :=
  PyVal → SpecMap → Except String (Option Process × SpecMap × Option Exchange)

/-- The identifier derivation of `_process` (lines 392-404): a supplied
`@id` — whatever its shape — is used as is; only a missing (`None`) one is
replaced by the derived `_uid` of model type, category, location code and
name. -/
def processUid (env : Env) (dict_d : PyVal) : PyVal :=
  let uid0 := val dict_d ["@id"]
  if isNoneV uid0 then
    .str (uid env [mtProcess, pyStr (valD dict_d ["category"] (.str "")),
      pyStr (valD dict_d ["location", "name"] (.str "")),
      pyStr (val dict_d ["name"])])
  else uid0

/-- Model of `_exchange(dict_d, dict_s)` with the provider recursion abstracted. -/
def exchangeF (env : Env) (prov : ProcCall) (dict_d : PyVal) (s : SpecMap) :
    Except String (Option Exchange × SpecMap) :=
  match dict_d with
  | .none => pure (Option.none, s)
  | _ => do
    let dqe ← format_dq_entry (val dict_d ["dqEntry"])
    let unit_name := valD dict_d ["unit"] (.str "kg")
    let u := unit unit_name env
    let fp ← flow_property unit_name s env
    let (flr, s1, _) ← flow (val dict_d ["flow"]) fp s env
    let unc ← uncertainty (val dict_d ["uncertainty"])
    let (p1, s2, _) ← prov (val dict_d ["provider"]) s1
    pure (some ⟨valD dict_d ["quantitativeReference"] (.bool false),
      valD dict_d ["input"] (.bool false),
      valD dict_d ["avoidedProduct"] (.bool false),
      valD dict_d ["amount"] (.num (.dec 0 0)),
      dqe, val dict_d ["comment"], 0, u,
      (fp.map FlowProperty.toRef), flr, unc,
      (p1.map Process.toRef)⟩, s2)

/-- Python iteration over the `exchanges` value: lists yield their elements,
strings their characters, dictionaries their keys; other non-iterables raise
`TypeError`. -/
def exchIter (v : PyVal) : Except String (List PyVal) :=
  match v with
  | .list ar => pure ar.toList
  | .str s => pure (s.data.map fun c => .str (String.singleton c))
  | .dict dd => pure (dd.keys.map fun k => .str k)
  | _ => throw "TypeError: object is not iterable"

/-- Loop of `_exchange_list`: skip `None` entries, assign dense 1-based
internal identifiers, and remember the last exchange whose
quantitative-reference flag is truthy. -/
def exchangeLoop (env : Env) (prov : ProcCall) :
    List PyVal → SpecMap → Nat → List Exchange → Option Exchange →
      Except String (List Exchange × SpecMap × Option Exchange)
  | [], s, _, acc, q => pure (acc, s, q)
  | e :: t, s, lastId, acc, q => do
    let (ex1, s1) ← exchangeF env prov e s
    match ex1 with
    | Option.none => exchangeLoop env prov t s1 lastId acc q
    | some ex =>
      let ex2 := {ex with internalId := lastId + 1}
      exchangeLoop env prov t s1 (lastId + 1) (acc ++ [ex2])
        (if pyTruthy ex2.isQuantitativeReference then some ex2 else q)

/-- Model of `_exchange_list(dict_d, dict_s)` with the provider recursion
abstracted. -/
def exchange_listF (env : Env) (prov : ProcCall) (dict_d : PyVal) (s : SpecMap) :
    Except String (List Exchange × SpecMap × Option Exchange) := do
  let items ← exchIter (valD dict_d ["exchanges"] (.list .anil))
  exchangeLoop env prov items s 0 [] Option.none

/-- Body of `_process(dict_d, dict_s)` with the provider recursion
abstracted.  The fuel is forwarded to the `_find_dq` recursion. -/
def processBody (env : Env) (fuel : Nat) (prov : ProcCall) (dict_d : PyVal)
    (s : SpecMap) : Except String (Option Process × SpecMap × Option Exchange) :=
  match dict_d with
  | .dict _ =>
    let uidv := processUid env dict_d
    if pyContains s.process.ids uidv then
      match regGet s.process.ids s.process.objs uidv with
      | some p => pure (some p, s, find_ref_exchange p)
      | Option.none => throw "IndexError: list index out of range"
    else do
      let (loc, s1) ← location (val dict_d ["location"]) s env
      let (doc, s2) ← process_doc (val dict_d ["processDocumentation"]) s1 env
      let dqe ← dq_entry fuel dict_d
      let (dqs, s3) ← dq_system fuel dict_d s2 "dqSystem" env
      let (edqs, s4) ← dq_system fuel dict_d s3 "exchangeDqSystem" env
      let (exs, s5, e_ref) ← exchange_listF env prov dict_d s4
      let p : Process := ⟨uidv, val dict_d ["name"],
        valD dict_d ["category"] (.str ""),
        valD dict_d ["version"] (.str env.version),
        val dict_d ["description"],
        (if pyEq (valD dict_d ["processType"] (.str "UNIT_PROCESS"))
            (.str "UNIT_PROCESS") then .UNIT_PROCESS else .LCI_RESULT),
        loc, some doc, dqe, dqs, edqs, some exs⟩
      pure (some p, s5, e_ref)
  | _ => pure (Option.none, s, Option.none)

/-- Model of `_process(dict_d, dict_s)`: ties the provider recursion with a fuel
counter decremented at each provider nesting level. -/
def process (env : Env) : Nat → PyVal → SpecMap →
    Except String (Option Process × SpecMap × Option Exchange)
  | 0, _, _ => throw "RecursionError: maximum recursion depth exceeded"
  | n + 1, d, s => processBody env (n + 1) (fun d1 s1 => process env n d1 s1) d s

/-- Model of `_exchange(dict_d, dict_s)`. -/
def exchange (env : Env) (fuel : Nat) (d : PyVal) (s : SpecMap) :
    Except String (Option Exchange × SpecMap) :=
  exchangeF env (fun d1 s1 => process env fuel d1 s1) d s

/-- Model of `_exchange_list(dict_d, dict_s)`. -/
def exchange_list (env : Env) (fuel : Nat) (d : PyVal) (s : SpecMap) :
    Except String (List Exchange × SpecMap × Option Exchange) :=
  exchange_listF env (fun d1 s1 => process env fuel d1 s1) d s

/-! ## The `write` loop -/

/-- One iteration of the loop in `write` (lines 148-173): build the process,
then `spec_map['Process']['ids'].append(p.id)` and
`spec_map['Process']['objs'].append(p)` — unconditionally, whether or not
`_process` returned an already stored entity.  Accessing `p.id` on the `None`
returned for a non-dictionary description raises `AttributeError`.  The
annotation of the caller's mapping (`uuid`, `q_reference_*`) only mutates the
input dictionaries and is summarized by returning the built process and
reference exchange. -/
def writeStep (env : Env) (fuel : Nat) (s : SpecMap) (d : PyVal) :
    Except String (SpecMap × Process × Option Exchange) := do
  let (p1, s1, e) ← process env fuel d s
  match p1 with
  | Option.none => throw "AttributeError: NoneType object has no attribute id"
  | some p => pure ({s1 with process := s1.process.push p.id p}, p, e)

/-- The `for p_key in processes.keys()` loop of `write`, over the initial
root-entity registry produced by `_init_root_entities`. -/
def write (env : Env) (fuel : Nat) : List (String × PyVal) → SpecMap →
    Except String (SpecMap × List (String × Process × Option Exchange))
  | [], s => pure (s, [])
  | (k, d) :: t, s => do
    let (s1, p, e) ← writeStep env fuel s d
    let (s2, rest) ← write env fuel t s1
    pure (s2, (k, p, e) :: rest)

/-! ## Merging into the existing archive (`_make_entity_dict`,
`_update_data`, `_save_to_json`) -/

/-- Python `d[k] = v` on the identifier-keyed dictionary built by
`_make_entity_dict`: replace the value in place when an equal key exists
(keeping the originally inserted key object), else append. -/
def dinsert {α : Type} (k : PyVal) (v : α) :
    List (PyVal × α) → List (PyVal × α)
  | [] => [(k, v)]
  | (k1, v1) :: t => if pyEq k1 k then (k1, v) :: t else (k1, v1) :: dinsert k v t

/-- Python `d.get(k)` on the identifier-keyed dictionary. -/
def alookup {α : Type} (k : PyVal) : List (PyVal × α) → Option α
  | [] => Option.none
  | (k1, v1) :: t => if pyEq k1 k then some v1 else alookup k t

/-- Model of `_make_entity_dict(e_dict, e_key)`: fold the parallel `ids`/`objs` lists
into an insertion-ordered dictionary.  The loop runs over all indices of
`ids`; an index beyond `objs` raises `IndexError`, which is caught and the
entry skipped — so exactly the zipped prefix contributes. -/
def make_entity_dict {α : Type} (r : EntityReg α) : List (PyVal × α) :=
  (r.ids.zip r.objs).foldl (fun acc p => dinsert p.1 p.2 acc) []

/-- Model of `_update_data(cur_data, new_data)` for one entity type: convert both
registries to dictionaries, apply Python `dict.update`, and read the merged
`ids`/`objs` lists back off the dictionary. -/
def update_data {α : Type} (cur new : EntityReg α) : EntityReg α :=
  let d := (make_entity_dict new).foldl (fun acc p => dinsert p.1 p.2 acc)
    (make_entity_dict cur)
  ⟨d.map Prod.fst, d.map Prod.snd⟩

/-- Model of `_update_data` over every entity type (`for k in cur_data.keys()`). -/
def update_data_all (cur new : SpecMap) : SpecMap :=
  ⟨update_data cur.actor new.actor, update_data cur.dqsystem new.dqsystem,
   update_data cur.flow new.flow, update_data cur.flowProperty new.flowProperty,
   update_data cur.location new.location, update_data cur.process new.process,
   update_data cur.source new.source⟩

/-- File-system operations `_save_to_json` performs on the archive path. -/
inductive FsOp where
  | read
  | remove
  | writeZip
deriving DecidableEq, Repr

/-- The operation sequence of `_save_to_json`: when a prior archive exists it
is read and then deleted by `os.remove` (line 207) before `zipio.ZipWriter`
writes the merged data (line 215). -/
def save_trace (priorExists : Bool) : List FsOp :=
  if priorExists then [.read, .remove, .writeZip] else [.read, .writeZip]

/-- Model of `_save_to_json(json_file, e_dict)` as a transformer of the archive file
state.  `disk` is the current content of the archive path (`none` when the
file does not exist, which makes `_read_jsonld` raise `OSError`), and
`writeOk` tells whether the zip write completes; a failed write leaves no
archive at the path, since the old one was already removed.  The result is
the final file state and whether an exception escaped. -/
def save_to_json (writeOk : Bool) (disk : Option SpecMap) (e_dict : SpecMap) :
    Option SpecMap × Bool :=
  match disk with
  | some c_data =>
    let merged := update_data_all c_data e_dict
    if writeOk then (some merged, false) else (Option.none, true)
  | Option.none =>
    let merged := update_data_all emptySpecMap e_dict
    if writeOk then (some merged, false) else (Option.none, true)

/-! ## Concrete environment used by witnesses and counterexamples

The determinism of `uuid.uuid3` is all the claims rely on, so witnesses may
instantiate the digest with the identity function; the unit tables are empty
and the clock is fixed. -/

def testEnv : Env :=
  ⟨fun s => s, fun _ => Option.none, fun _ => Option.none,
   "2023-12-07T00:00:00+00:00", 2023, "2"⟩

/-! ## C8 — a missing actor name aborts the whole build -/

/-- Process description whose documentation record carries no reviewer. -/
def c8desc : PyVal :=
  .dict (pd [("name", .str "x"),
    ("processDocumentation", .dict (pd [("timeDescription", .str "t")]))])

/-! ## C1 — duplicate registry entries on re-insertion -/

/-- A minimal process description; submitted twice it derives the same
identifier. -/
def c1desc : PyVal := .dict (pd [("name", .str "Coal")])

/-- The identifier both submissions derive under the identity digest. -/
def c1uid : PyVal := .str "modeltype.process//coal/coal"

/-! ## C5 — a supplied Process identifier is never validated -/

/-- Process description carrying a syntactically invalid identifier. -/
def c5desc : PyVal :=
  .dict (pd [("@id", .str "not-a-uuid"), ("name", .str "x")])

/-! ## C6 — both flagged exchanges stay flagged; the last one is reported -/

/-- An exchange description flagged as quantitative reference. -/
def c6exch (nm : String) : PyVal :=
  .dict (pd [("quantitativeReference", .bool true),
    ("flow", .dict (pd [("name", .str nm), ("category", .str "air")])),
    ("amount", .num (.dec 1 0))])

/-- A process description with two exchanges flagged quantitative
reference. -/
def c6desc : PyVal :=
  .dict (pd [("name", .str "P"),
    ("exchanges", .list (pa [c6exch "f1", c6exch "f2"]))])

/-! ## C7 — an exchange with a missing flow is retained, not skipped -/

/-- A process description with one exchange entry that has no flow record. -/
def c7desc : PyVal :=
  .dict (pd [("name", .str "Q"),
    ("exchanges", .list (pa [.dict (pd [("amount", .num (.dec 2 0))])]))])

/-! ## C10 — the waste mutation skips already registered flows -/

/-- A waste-category flow record with an explicit `flowType` key. -/
def c10dd : PyDict :=
  pd [("id", .str "u1"), ("flowType", .str "PRODUCT_FLOW"),
    ("category", .str "Waste"), ("name", .str "f")]

/-- The same record as a Python value. -/
def c10desc : PyVal := .dict c10dd

/-- A registry that already stores a flow under the identifier `u1`. -/
def c10reg : SpecMap :=
  {emptySpecMap with
    flow := ⟨[.str "u1"],
      [⟨.str "u1", .str "f", Option.none, "Waste", Option.none⟩]⟩}

/-! ## Properties of the identifier-keyed dictionaries -/

/-- Key-disjointness (with respect to Python equality) of an ordered
dictionary: the invariant maintained by `dinsert`. -/
def pkeys {α : Type} (l : List (PyVal × α)) : Prop :=
  l.Pairwise fun a b => pyEq a.1 b.1 = false

/-- Modelled from the spec (§4.6 Archive Merger), for comparison with
`update_data`: per type, existing entries come first in their original order
with entries overridden by a fresh entry of the same identifier replaced in
place, followed by the fresh entries not present in the existing registry,
appended in order. -/
def merge_spec {α : Type} (dc dn : List (PyVal × α)) : List (PyVal × α) :=
  (dc.map fun kv => (kv.1, (alookup kv.1 dn).getD kv.2)) ++
    dn.filter fun kv => (alookup kv.1 dc).isNone

/-! ## Witness inputs and result extractors

The following definitions run the embedded builders on small concrete inputs
and project the components of their results, so that the witnesses below can
state closed facts and discharge the theorems' hypotheses by `rfl`. -/

/-- Fallback Process value for the extractors (never reached). -/
def noProc : Process :=
  ⟨.none, .none, .none, .none, .none, .UNIT_PROCESS, Option.none, Option.none,
   Option.none, Option.none, Option.none, Option.none⟩

/-- Registry state after submitting `c1desc` once. -/
def c1s1 : SpecMap :=
  match write testEnv 2 [("a", c1desc)] emptySpecMap with
  | .ok (s, _) => s
  | .error _ => emptySpecMap

/-- The Process entity built from `c1desc`. -/
def c1p : Process :=
  match process testEnv 2 c1desc emptySpecMap with
  | .ok (some p, _, _) => p
  | _ => noProc

/-- A canonical version-4 identifier. -/
def v4id : String := "c9bf9e57-1685-4c89-bafb-ff5af830be8a"

/-- A canonical version-3 identifier. -/
def v3id : String := "c9bf9e57-1685-3c89-9afb-ff5af830be8a"

def c5dda : PyDict := pd [("@id", .str v4id), ("name", .str "x")]

def c5pa : Option Process :=
  match process testEnv 2 (.dict c5dda) emptySpecMap with
  | .ok (p, _, _) => p
  | _ => Option.none

def c5sa : SpecMap :=
  match process testEnv 2 (.dict c5dda) emptySpecMap with
  | .ok (_, s, _) => s
  | _ => emptySpecMap

def c5ea : Option Exchange :=
  match process testEnv 2 (.dict c5dda) emptySpecMap with
  | .ok (_, _, e) => e
  | _ => Option.none

def c5ddb : PyDict :=
  pd [("id", .str "bogus"), ("category", .str "air"), ("name", .str "g")]

def c5rb : Option Ref :=
  match flow (.dict c5ddb) Option.none emptySpecMap testEnv with
  | .ok (r, _, _) => r
  | _ => Option.none

def c5sb : SpecMap :=
  match flow (.dict c5ddb) Option.none emptySpecMap testEnv with
  | .ok (_, s, _) => s
  | _ => emptySpecMap

def c5db : PyVal :=
  match flow (.dict c5ddb) Option.none emptySpecMap testEnv with
  | .ok (_, _, d) => d
  | _ => .none

def c5ddc : PyDict := pd [("name", .str "US"), ("id", .str v3id)]

def c5rc : Option Ref :=
  match location (.dict c5ddc) emptySpecMap testEnv with
  | .ok (r, _) => r
  | _ => Option.none

def c5sc : SpecMap :=
  match location (.dict c5ddc) emptySpecMap testEnv with
  | .ok (_, s) => s
  | _ => emptySpecMap

def c5q : PyDict := pd [("@id", .str "zz"), ("name", .str "EPA")]

def c5ddd : PyDict := pd [("dqSystem", .dict c5q)]

def c5rd : Option Ref :=
  match dq_system 2 (.dict c5ddd) emptySpecMap "dqSystem" testEnv with
  | .ok (r, _) => r
  | _ => Option.none

def c5sd : SpecMap :=
  match dq_system 2 (.dict c5ddd) emptySpecMap "dqSystem" testEnv with
  | .ok (_, s) => s
  | _ => emptySpecMap

def c6r : List Exchange :=
  match exchange_list testEnv 1 c6desc emptySpecMap with
  | .ok (r, _, _) => r
  | _ => []

def c6s2 : SpecMap :=
  match exchange_list testEnv 1 c6desc emptySpecMap with
  | .ok (_, s, _) => s
  | _ => emptySpecMap

def c6q : Option Exchange :=
  match exchange_list testEnv 1 c6desc emptySpecMap with
  | .ok (_, _, q) => q
  | _ => Option.none

def c6p : Process :=
  match process testEnv 2 c6desc emptySpecMap with
  | .ok (some p, _, _) => p
  | _ => noProc

def c7r : List Exchange :=
  match exchange_list testEnv 1 c7desc emptySpecMap with
  | .ok (r, _, _) => r
  | _ => []

def c7s2 : SpecMap :=
  match exchange_list testEnv 1 c7desc emptySpecMap with
  | .ok (_, s, _) => s
  | _ => emptySpecMap

def c7q : Option Exchange :=
  match exchange_list testEnv 1 c7desc emptySpecMap with
  | .ok (_, _, q) => q
  | _ => Option.none

def c7ed : PyVal := .dict (pd [("amount", .num (.dec 2 0))])

def c7o : Option Exchange :=
  match exchange testEnv 1 c7ed emptySpecMap with
  | .ok (o, _) => o
  | _ => Option.none

def c7so : SpecMap :=
  match exchange testEnv 1 c7ed emptySpecMap with
  | .ok (_, s) => s
  | _ => emptySpecMap

/-! # Theorems -/

theorem decVal_mul_pow (m e d : Int) :
    decVal m e * (10 : ℚ) ^ (-d) = (m : ℚ) * (10 : ℚ) ^ (e - d) := by
  rw [decVal, mul_assoc, ← zpow_add₀ (by norm_num : (10 : ℚ) ≠ 0), sub_eq_add_neg]

theorem decEqVal_iff (m1 e1 m2 e2 : Int) :
    decEqVal m1 e1 m2 e2 = true ↔ decVal m1 e1 = decVal m2 e2 := by
  have h10 : (10 : ℚ) ^ (-(min e1 e2)) ≠ 0 := zpow_ne_zero _ (by norm_num)
  rw [decEqVal, decide_eq_true_eq]
  constructor
  · intro h
    have hq : ((m1 * (10 : Int) ^ (e1 - min e1 e2).toNat : Int) : ℚ)
        = ((m2 * (10 : Int) ^ (e2 - min e1 e2).toNat : Int) : ℚ) := by
      exact_mod_cast h
    push_cast at hq
    rw [← mul_left_inj' h10, decVal_mul_pow, decVal_mul_pow]
    rw [← Int.toNat_of_nonneg (by omega : (0 : Int) ≤ e1 - min e1 e2),
      ← Int.toNat_of_nonneg (by omega : (0 : Int) ≤ e2 - min e1 e2),
      zpow_natCast, zpow_natCast]
    exact_mod_cast hq
  · intro h
    have hq := congrArg (fun q => q * (10 : ℚ) ^ (-(min e1 e2))) h
    simp only [decVal_mul_pow] at hq
    rw [← Int.toNat_of_nonneg (by omega : (0 : Int) ≤ e1 - min e1 e2),
      ← Int.toNat_of_nonneg (by omega : (0 : Int) ≤ e2 - min e1 e2),
      zpow_natCast, zpow_natCast] at hq
    exact_mod_cast hq

theorem pyNumEq_symm (a b : PyNum) : pyNumEq a b = pyNumEq b a := by
  cases a <;> cases b <;> simp only [pyNumEq]
  · rename_i m1 e1 m2 e2
    by_cases h : decEqVal m1 e1 m2 e2 = true
    · rw [h, Eq.symm ((decEqVal_iff m2 e2 m1 e1).mpr ((decEqVal_iff m1 e1 m2 e2).mp h).symm)]
    · rw [Bool.eq_false_iff.mpr h, eq_comm]
      rw [Bool.eq_false_iff]
      intro h2
      exact h ((decEqVal_iff m1 e1 m2 e2).mpr ((decEqVal_iff m2 e2 m1 e1).mp h2).symm)
  · simp [eq_comm]

theorem pyNumEq_trans (a b c : PyNum) (h1 : pyNumEq a b = true)
    (h2 : pyNumEq b c = true) : pyNumEq a c = true := by
  cases a <;> cases b <;> cases c <;> simp only [pyNumEq] at h1 h2 ⊢
  · exact (decEqVal_iff _ _ _ _).mpr
      (((decEqVal_iff _ _ _ _).mp h1).trans ((decEqVal_iff _ _ _ _).mp h2))
  all_goals simp_all

theorem string_data_append (a b : String) : (a ++ b).data = a.data ++ b.data := by
  cases a
  cases b
  rfl

theorem pyLower_append (a b : String) :
    pyLower (a ++ b) = pyLower a ++ pyLower b := by
  cases a
  cases b
  simp [pyLower, String.ext_iff, string_data_append]

theorem pyLower_strJoin (xs : List String) :
    pyLower (strJoin "/" xs) = strJoin "/" (xs.map pyLower) := by
  match xs with
  | [] => rfl
  | [x] => rfl
  | x :: y :: t =>
    simp only [strJoin, List.map_cons, pyLower_append, pyLower_strJoin (y :: t)]
    rfl

mutual
theorem pyEq_symm (a b : PyVal) : pyEq a b = pyEq b a := by
  cases a <;> cases b <;> simp only [pyEq] <;>
    first
      | rfl
      | (apply pyNumEq_symm)
      | (simp [eq_comm])
      | (apply pyEqDict_symm)
      | (apply pyEqArr_symm)
theorem pyEqDict_symm (a b : PyDict) : pyEqDict a b = pyEqDict b a := by
  cases a <;> cases b <;> simp only [pyEqDict]
  rename_i k v t k2 v2 t2
  rw [pyEq_symm v v2, pyEqDict_symm t t2]
  simp [eq_comm]
theorem pyEqArr_symm (a b : PyArr) : pyEqArr a b = pyEqArr b a := by
  cases a <;> cases b <;> simp only [pyEqArr]
  rename_i v t v2 t2
  rw [pyEq_symm v v2, pyEqArr_symm t t2]
end

theorem bnum_eq_of_pyNumEq (x y : Bool) (h : pyNumEq (bnum x) (bnum y) = true) :
    x = y := by
  cases x <;> cases y <;> simp_all [bnum, pyNumEq, decEqVal]

mutual
theorem pyEq_trans (a b c : PyVal) (h1 : pyEq a b = true) (h2 : pyEq b c = true) :
    pyEq a c = true := by
  cases a <;> cases b <;> cases c <;> simp only [pyEq] at h1 h2 ⊢ <;>
    first
      | rfl
      | exact absurd h1 Bool.false_ne_true
      | exact absurd h2 Bool.false_ne_true
      | exact pyNumEq_trans _ _ _ h1 h2
      | exact pyEqDict_trans _ _ _ h1 h2
      | exact pyEqArr_trans _ _ _ h1 h2
      | (simp only [decide_eq_true_eq] at h1; subst h1; exact h2)
      | (simp only [decide_eq_true_eq] at h2; subst h2; exact h1)
      | exact decide_eq_true_eq.mpr (bnum_eq_of_pyNumEq _ _ (pyNumEq_trans _ _ _ h1 h2))
theorem pyEqDict_trans (a b c : PyDict) (h1 : pyEqDict a b = true)
    (h2 : pyEqDict b c = true) : pyEqDict a c = true := by
  cases a <;> cases b <;> cases c <;> simp only [pyEqDict] at h1 h2 ⊢ <;>
    first
      | rfl
      | exact absurd h1 Bool.false_ne_true
      | exact absurd h2 Bool.false_ne_true
      | (simp only [Bool.and_eq_true, decide_eq_true_eq] at h1 h2 ⊢
         exact ⟨⟨h1.1.1.trans h2.1.1, pyEq_trans _ _ _ h1.1.2 h2.1.2⟩,
           pyEqDict_trans _ _ _ h1.2 h2.2⟩)
theorem pyEqArr_trans (a b c : PyArr) (h1 : pyEqArr a b = true)
    (h2 : pyEqArr b c = true) : pyEqArr a c = true := by
  cases a <;> cases b <;> cases c <;> simp only [pyEqArr] at h1 h2 ⊢ <;>
    first
      | rfl
      | exact absurd h1 Bool.false_ne_true
      | exact absurd h2 Bool.false_ne_true
      | (simp only [Bool.and_eq_true] at h1 h2 ⊢
         exact ⟨pyEq_trans _ _ _ h1.1 h2.1, pyEqArr_trans _ _ _ h1.2 h2.2⟩)
end

/-! ## C2 — determinism of the identifier derivation -/

/-- C2: `_uid` is a pure deterministic function: whenever the path segments of
two argument sequences agree after stripping surrounding whitespace and
lower-casing, the derived identifiers agree (and with syntactically equal
arguments the hypothesis holds by reflexivity, so repeated calls return the
same identifier). -/
theorem c2_uid_deterministic (env : Env) (a b : List String)
    (h : a.map (fun s => pyLower (pyStrip s)) = b.map (fun s => pyLower (pyStrip s))) :
    uid env a = uid env b := by
  unfold uid uid_path
  congr 1
  rw [pyLower_strJoin, pyLower_strJoin, List.map_map, List.map_map]
  have hc : (pyLower ∘ pyStrip) = fun s => pyLower (pyStrip s) := rfl
  rw [hc, h]

/-- Witness for C2: `"  CoAl "` and `"coal"` differ only by case and
surrounding whitespace in a segment, and collide to one identifier. -/
theorem c2_uid_deterministic_witness :
    (["  CoAl ", "Xy"].map (fun s => pyLower (pyStrip s))
      = ["coal", " xY"].map (fun s => pyLower (pyStrip s))) ∧
    uid testEnv ["  CoAl ", "Xy"] = uid testEnv ["coal", " xY"] :=
  ⟨rfl, c2_uid_deterministic testEnv ["  CoAl ", "Xy"] ["coal", " xY"] rfl⟩

/-! ## C4 — the old archive is removed before the new one is written -/

/-- C4: contrary to the claim, `_save_to_json` deletes the existing archive
(`os.remove`, line 207) before `zipio.ZipWriter` starts writing the merged
data (line 215): the operation trace on the archive path is
read-remove-write, and if the write fails the archive path holds nothing —
the prior archive is lost, while a successful write stores the merged
registry. -/
theorem c4_save_deletes_before_write (prior e_dict : SpecMap) :
    save_to_json false (some prior) e_dict = (Option.none, true) ∧
    save_to_json true (some prior) e_dict
      = (some (update_data_all prior e_dict), false) ∧
    save_trace true = [FsOp.read, FsOp.remove, FsOp.writeZip] :=
  ⟨rfl, rfl, rfl⟩

/-- C8: a documentation record that is not a dictionary is indeed skipped
(first conjunct), but a documentation dictionary with a missing actor field
is not: `_actor` returns a bare `None` instead of its documented
`(ref, dict_s)` tuple, the caller's tuple unpacking raises `TypeError`, and
the whole build aborts — for any digest function and any recursion budget. -/
theorem c8_actor_unpack_aborts (env : Env) (n : Nat) (s : SpecMap) :
    process_doc (.str "not a record") s env
      = .ok (⟨[], Option.none, Option.none, Option.none, Option.none,
          Option.none, Option.none, Option.none, [], env.now⟩, s) ∧
    write env (n + 1) [("p", c8desc)] emptySpecMap
      = .error "TypeError: cannot unpack non-iterable NoneType object" :=
  ⟨rfl, rfl⟩

/-! ## C9 — uncertainty resolution raises on non-numeric strings -/

/-- C9: a log-normal record with numeric-string parameters resolves to the
numeric uncertainty object (`3.2 = 32e-1`, `1.1 = 11e-1`), any other
distribution type resolves to `None` — but a mean that is a non-numeric
string makes `float()` raise an uncaught `ValueError`, although the claim
(and the docstring of `_uncertainty`) promise `None` without an error. -/
theorem c9_uncertainty_behavior :
    uncertainty (.dict (pd [("distributionType",
        .str "Logarithmic Normal Distribution"),
        ("geomMean", .str "3.2"), ("geomSd", .str "1.1")]))
      = .ok (some ⟨.num (.dec 32 (-1)), .num (.dec 11 (-1))⟩) ∧
    uncertainty (.dict (pd [("distributionType", .str "Normal"),
        ("geomMean", .str "3.2"), ("geomSd", .str "1.1")]))
      = .ok Option.none ∧
    uncertainty (.dict (pd [("distributionType",
        .str "Logarithmic Normal Distribution"),
        ("geomMean", .str "abc"), ("geomSd", .str "1.1")]))
      = .error "ValueError: could not convert string to float" :=
  ⟨rfl, rfl, rfl⟩

/-- C1 counterexample: submitting the same process description twice leaves
TWO `(id, object)` entries for that identifier in the Process registry — the
claimed at-most-one-entry invariant fails (the identity digest stands in for
`uuid.uuid3`; identical descriptions collide under any digest). -/
theorem c1_counterexample :
    (write testEnv 2 [("a", c1desc), ("b", c1desc)] emptySpecMap).map
        (fun r => r.1.process.ids)
      = .ok [c1uid, c1uid] ∧
    ¬ ([c1uid, c1uid] : List PyVal).Nodup :=
  ⟨rfl, by simp⟩

/-- C5 counterexample: `"not-a-uuid"` fails validation for every accepted
version, yet `_process` stores it verbatim instead of regenerating — the
claimed silent regeneration does not happen for Process entities. -/
theorem c5_counterexample :
    uid_is_valid (.str "not-a-uuid") 3 = false ∧
    uid_is_valid (.str "not-a-uuid") 4 = false ∧
    (process testEnv 2 c5desc emptySpecMap).map
        (fun r => r.1.map (fun p => p.id))
      = .ok (some (.str "not-a-uuid")) :=
  ⟨rfl, rfl, rfl⟩

/-- C6 counterexample: with two flagged entries the resolved Process still
carries TWO exchanges flagged as quantitative reference (nothing un-flags the
first one), so it does not report "exactly one" such exchange; the reference
reported alongside it is the second (last) entry, with internal identifier
2. -/
theorem c6_counterexample :
    (process testEnv 2 c6desc emptySpecMap).map (fun r =>
        (r.1.map (fun p => ((p.exchanges.getD []).filter
          (fun x => pyTruthy x.isQuantitativeReference)).length),
         r.2.2.map (fun x => x.internalId)))
      = .ok (some 2, some 2) ∧ (2 : Nat) ≠ 1 :=
  ⟨rfl, by decide⟩

/-- C7 counterexample: the malformed exchange (missing flow) is NOT skipped —
the resolved Process carries one exchange, numbered 1, whose flow reference
is null; the claim promised that such an entry contributes no Exchange
object. -/
theorem c7_counterexample :
    (process testEnv 2 c7desc emptySpecMap).map (fun r =>
        r.1.map (fun p => (p.exchanges.getD []).map
          (fun x => (x.internalId, x.flow.isSome))))
      = .ok (some [(1, false)]) :=
  rfl

/-- C10 counterexample: resolving a waste-category flow record whose
identifier is already present in the registry returns the stored flow and
leaves the caller's dictionary untouched — `flowType` keeps its original
value, so the claimed unconditional mutation does not happen. -/
theorem c10_counterexample :
    (flow c10desc Option.none c10reg testEnv).map (fun r => r.2.2)
      = .ok c10desc ∧
    pyIn "waste" (pyLower "Waste") = true ∧
    val c10desc ["flowType"] = .str "PRODUCT_FLOW" :=
  ⟨rfl, rfl, rfl⟩

theorem alookup_eq_none_iff {α : Type} (k : PyVal) (l : List (PyVal × α)) :
    alookup k l = Option.none ↔ ∀ e ∈ l, pyEq e.1 k = false := by
  induction l with
  | nil => simp [alookup]
  | cons x t ih =>
    cases hx : pyEq x.1 k with
    | true => simp [alookup, hx, List.forall_mem_cons]
    | false => simp [alookup, hx, ih, List.forall_mem_cons]

theorem dinsert_of_absent {α : Type} (k : PyVal) (v : α) (l : List (PyVal × α))
    (h : ∀ e ∈ l, pyEq e.1 k = false) : dinsert k v l = l ++ [(k, v)] := by
  induction l with
  | nil => rfl
  | cons x t ih =>
    rcases List.forall_mem_cons.mp h with ⟨hx, ht⟩
    simp only [dinsert, hx, Bool.false_eq_true, if_false, List.cons_append,
      List.cons.injEq, true_and]
    exact ih ht

theorem map_id_of_no_key {α : Type} (k : PyVal) (v : α) (l : List (PyVal × α))
    (h : ∀ e ∈ l, pyEq e.1 k = false) :
    (l.map fun e => if pyEq e.1 k then (e.1, v) else e) = l := by
  induction l with
  | nil => rfl
  | cons x t ih =>
    rcases List.forall_mem_cons.mp h with ⟨hx, ht⟩
    simp only [List.map_cons, hx, Bool.false_eq_true, if_false]
    rw [ih ht]

theorem dinsert_of_present {α : Type} (k : PyVal) (v : α) (l : List (PyVal × α))
    (hp : pkeys l) (h : alookup k l ≠ Option.none) :
    dinsert k v l = l.map fun e => if pyEq e.1 k then (e.1, v) else e := by
  induction l with
  | nil => simp [alookup] at h
  | cons x t ih =>
    cases hx : pyEq x.1 k with
    | true =>
      simp only [dinsert, hx, if_true, List.map_cons]
      have htail : ∀ e ∈ t, pyEq e.1 k = false := by
        intro e he
        cases h2 : pyEq e.1 k with
        | false => rfl
        | true =>
          have hxe : pyEq x.1 e.1 = false := (List.pairwise_cons.mp hp).1 e he
          have hxe2 : pyEq x.1 e.1 = true :=
            pyEq_trans _ _ _ hx (by rw [pyEq_symm]; exact h2)
          rw [hxe2] at hxe
          exact absurd hxe (by simp)
      rw [map_id_of_no_key k v t htail]
    | false =>
      simp only [dinsert, hx, Bool.false_eq_true, if_false, List.map_cons]
      simp only [alookup, hx, Bool.false_eq_true, if_false] at h
      rw [ih (List.pairwise_cons.mp hp).2 h]

theorem mem_dinsert_key {α : Type} (k : PyVal) (v : α) (l : List (PyVal × α))
    (e : PyVal × α) (he : e ∈ dinsert k v l) :
    (∃ e2 ∈ l, e.1 = e2.1) ∨ e.1 = k := by
  induction l with
  | nil =>
    simp only [dinsert, List.mem_singleton] at he
    right
    rw [he]
  | cons x t ih =>
    cases hx : pyEq x.1 k with
    | true =>
      rw [dinsert, hx, if_pos rfl] at he
      rcases List.mem_cons.mp he with he | he
      · exact Or.inl ⟨x, List.mem_cons_self _ _, by rw [he]⟩
      · exact Or.inl ⟨e, List.mem_cons_of_mem _ he, rfl⟩
    | false =>
      rw [dinsert, hx] at he
      simp only [Bool.false_eq_true, if_false] at he
      rcases List.mem_cons.mp he with he | he
      · exact Or.inl ⟨x, List.mem_cons_self _ _, by rw [he]⟩
      · rcases ih he with ⟨e2, he2, hk⟩ | hk
        · exact Or.inl ⟨e2, List.mem_cons_of_mem _ he2, hk⟩
        · exact Or.inr hk

theorem pkeys_dinsert {α : Type} (k : PyVal) (v : α) (l : List (PyVal × α))
    (hp : pkeys l) : pkeys (dinsert k v l) := by
  induction l with
  | nil =>
    simp only [dinsert, pkeys]
    exact List.pairwise_singleton _ _
  | cons x t ih =>
    rcases List.pairwise_cons.mp hp with ⟨hx, ht⟩
    cases hxk : pyEq x.1 k with
    | true =>
      rw [dinsert, hxk, if_pos rfl]
      exact List.pairwise_cons.mpr ⟨hx, ht⟩
    | false =>
      rw [dinsert, hxk]
      simp only [Bool.false_eq_true, if_false]
      refine List.pairwise_cons.mpr ⟨?_, ih ht⟩
      intro e he
      rcases mem_dinsert_key k v t e he with ⟨e2, he2, hk⟩ | hk
      · rw [hk]
        exact hx e2 he2
      · rw [hk]
        exact hxk

theorem pkeys_foldl_dinsert {α : Type} (l : List (PyVal × α)) :
    ∀ acc : List (PyVal × α), pkeys acc →
      pkeys (l.foldl (fun acc p => dinsert p.1 p.2 acc) acc) := by
  induction l with
  | nil => exact fun acc h => h
  | cons x t ih =>
    intro acc h
    exact ih _ (pkeys_dinsert x.1 x.2 acc h)

theorem pkeys_make_entity_dict {α : Type} (r : EntityReg α) :
    pkeys (make_entity_dict r) :=
  pkeys_foldl_dinsert _ [] List.Pairwise.nil

theorem alookup_append {α : Type} (k : PyVal) (l1 l2 : List (PyVal × α)) :
    alookup k (l1 ++ l2)
      = match alookup k l1 with
        | some w => some w
        | Option.none => alookup k l2 := by
  induction l1 with
  | nil => simp [alookup]
  | cons x t ih =>
    cases hx : pyEq x.1 k with
    | true => simp [alookup, hx]
    | false =>
      simp only [List.cons_append, alookup, hx, Bool.false_eq_true, if_false]
      exact ih

theorem alookup_map_replace {α : Type} (x k : PyVal) (v : α)
    (l : List (PyVal × α)) :
    (alookup x (l.map fun e => if pyEq e.1 k then (e.1, v) else e)).isNone
      = (alookup x l).isNone := by
  induction l with
  | nil => rfl
  | cons e t ih =>
    cases hek : pyEq e.1 k with
    | true =>
      simp only [List.map_cons, hek, if_true]
      cases hex : pyEq e.1 x with
      | true => simp [alookup, hex]
      | false =>
        simp only [alookup, hex, Bool.false_eq_true, if_false]
        exact ih
    | false =>
      simp only [List.map_cons, hek, Bool.false_eq_true, if_false]
      cases hex : pyEq e.1 x with
      | true => simp [alookup, hex]
      | false =>
        simp only [alookup, hex, Bool.false_eq_true, if_false]
        exact ih

theorem foldl_dinsert_spec {α : Type} :
    ∀ (dn dc : List (PyVal × α)), pkeys dc → pkeys dn →
      dn.foldl (fun acc p => dinsert p.1 p.2 acc) dc = merge_spec dc dn := by
  intro dn
  induction dn with
  | nil =>
    intro dc _ _
    simp [merge_spec, alookup]
  | cons kv rest ih =>
    intro dc hdc hdn
    obtain ⟨k, v⟩ := kv
    rcases List.pairwise_cons.mp hdn with ⟨hd, hrest⟩
    rw [List.foldl_cons]
    rw [ih (dinsert k v dc) (pkeys_dinsert k v dc hdc) hrest]
    cases hc : alookup k dc with
    | some w =>
      rw [dinsert_of_present k v dc hdc (by rw [hc]; exact fun h => Option.noConfusion h)]
      unfold merge_spec
      congr 1
      · rw [List.map_map]
        apply List.map_eq_map_iff.mpr
        intro e he
        simp only [Function.comp_apply]
        cases hek : pyEq e.1 k with
        | true =>
          simp only [hek, if_true]
          have h1 : alookup e.1 rest = Option.none := by
            rw [alookup_eq_none_iff]
            intro r hr
            cases h2 : pyEq r.1 e.1 with
            | false => rfl
            | true =>
              have h3 : pyEq r.1 k = true := pyEq_trans _ _ _ h2 hek
              have h4 := hd r hr
              rw [pyEq_symm] at h4
              rw [h3] at h4
              exact absurd h4 (by simp)
          have h5 : pyEq k e.1 = true := by rw [pyEq_symm]; exact hek
          simp [alookup, h1, h5]
        | false =>
          simp only [hek, Bool.false_eq_true, if_false]
          have h5 : pyEq k e.1 = false := by rw [pyEq_symm]; exact hek
          simp [alookup, h5]
      · simp only [List.filter_cons, hc, Option.isNone_some, Bool.false_eq_true,
          if_false]
        apply List.filter_congr
        intro r _
        exact alookup_map_replace r.1 k v dc
    | none =>
      have habs : ∀ e ∈ dc, pyEq e.1 k = false := (alookup_eq_none_iff k dc).mp hc
      rw [dinsert_of_absent k v dc habs]
      unfold merge_spec
      rw [List.map_append, List.map_singleton]
      have h1 : alookup k rest = Option.none := by
        rw [alookup_eq_none_iff]
        intro r hr
        have h4 := hd r hr
        rw [pyEq_symm] at h4
        exact h4
      simp only [h1, Option.getD_none]
      have h2 : (rest.filter fun r => (alookup r.1 (dc ++ [(k, v)])).isNone)
          = rest.filter fun r => (alookup r.1 dc).isNone := by
        apply List.filter_congr
        intro r hr
        rw [alookup_append]
        cases h3 : alookup r.1 dc with
        | some w => rfl
        | none =>
          have h4 := hd r hr
          simp [alookup, h4]
      rw [h2]
      have h3 : (dc.map fun e => (e.1, (alookup e.1 ((k, v) :: rest)).getD e.2))
          = dc.map fun e => (e.1, (alookup e.1 rest).getD e.2) := by
        apply List.map_eq_map_iff.mpr
        intro e he
        have h4 : pyEq k e.1 = false := by
          rw [pyEq_symm]
          exact habs e he
        simp [alookup, h4]
      rw [h3, List.filter_cons]
      simp only [hc, Option.isNone_none, if_true, List.append_assoc,
        List.singleton_append]

/-- C3: `_update_data` realizes the merge contract: per entity type, the
merged registry lists every existing entry first, in its original order, with
an entry replaced in place by the fresh entry that shares its identifier, and
then every fresh entry whose identifier is absent from the existing registry,
appended in order — entries unique to either side are kept, and fresh entries
override existing ones on identifier collision. -/
theorem c3_update_data_spec {α : Type} (cur new : EntityReg α) :
    update_data cur new =
      ⟨(merge_spec (make_entity_dict cur) (make_entity_dict new)).map Prod.fst,
       (merge_spec (make_entity_dict cur) (make_entity_dict new)).map Prod.snd⟩ := by
  unfold update_data
  rw [foldl_dinsert_spec (make_entity_dict new) (make_entity_dict cur)
    (pkeys_make_entity_dict cur) (pkeys_make_entity_dict new)]

/-! ## Inversion of `Except` binds -/

theorem bind_ok {α β : Type} {x : Except String α} {f : α → Except String β}
    {b : β} (h : x >>= f = .ok b) : ∃ a, x = .ok a ∧ f a = .ok b := by
  cases x with
  | error m => simp [Bind.bind, Except.bind] at h
  | ok a =>
    refine ⟨a, rfl, ?_⟩
    simpa [Bind.bind, Except.bind] using h

/-! ## The quantitative-reference loop invariant (C6) -/

theorem exchangeLoop_qref (env : Env) (prov : ProcCall) :
    ∀ (t : List PyVal) (s : SpecMap) (n : Nat) (acc : List Exchange)
      (q : Option Exchange) (r : List Exchange) (s2 : SpecMap)
      (q2 : Option Exchange),
      exchangeLoop env prov t s n acc q = .ok (r, s2, q2) →
      q = (acc.filter fun x => pyTruthy x.isQuantitativeReference).getLast? →
      q2 = (r.filter fun x => pyTruthy x.isQuantitativeReference).getLast? := by
  intro t
  induction t with
  | nil =>
    intro s n acc q r s2 q2 h hq
    simp only [exchangeLoop, pure, Except.pure, Except.ok.injEq,
      Prod.mk.injEq] at h
    rw [← h.1, ← h.2.2, hq]
  | cons e t ih =>
    intro s n acc q r s2 q2 h hq
    rw [exchangeLoop] at h
    obtain ⟨pr, h1, h⟩ := bind_ok h
    obtain ⟨ex1, s1⟩ := pr
    cases ex1 with
    | none => exact ih s1 n acc q r s2 q2 h hq
    | some ex =>
      dsimp only at h
      refine ih _ _ _ _ r s2 q2 h ?_
      rw [List.filter_append]
      cases hfl : pyTruthy ex.isQuantitativeReference with
      | true => simp [hfl, List.getLast?_concat]
      | false => simp [hfl, hq]

theorem foldl_qref (es : List Exchange) :
    ∀ init : Option Exchange,
      es.foldl
        (fun acc e => if pyTruthy e.isQuantitativeReference then some e else acc)
        init
      = ((es.filter fun x => pyTruthy x.isQuantitativeReference).getLast?).elim
          init some := by
  induction es with
  | nil => intro init; simp
  | cons e t ih =>
    intro init
    rw [List.foldl_cons, List.filter_cons]
    cases hfl : pyTruthy e.isQuantitativeReference with
    | true =>
      simp only [hfl, if_true]
      rw [ih (some e)]
      cases ht : (t.filter fun x => pyTruthy x.isQuantitativeReference) with
      | nil => simp
      | cons y l2 =>
        have hz : (y :: l2).getLast?.isSome := by
          rw [List.getLast?_isSome]
          exact List.cons_ne_nil _ _
        obtain ⟨z, hz2⟩ := Option.isSome_iff_exists.mp hz
        rw [List.getLast?_cons_cons, hz2]
        rfl
    | false =>
      simp only [hfl, Bool.false_eq_true, if_false]
      exact ih init

/-- C6 (amended): the builder does not enforce at most one flagged exchange
in the list; what it does guarantee is that the REPORTED quantitative
reference is the last exchange of the built list whose flag is truthy — both
in the `_exchange_list` result and through `_find_ref_exchange` on a stored
process. -/
theorem c6_last_reference_wins :
    (∀ (env : Env) (fuel : Nat) (d : PyVal) (s : SpecMap) (r : List Exchange)
      (s2 : SpecMap) (q : Option Exchange),
      exchange_list env fuel d s = .ok (r, s2, q) →
      q = (r.filter fun x => pyTruthy x.isQuantitativeReference).getLast?) ∧
    (∀ (p : Process) (es : List Exchange), p.exchanges = some es →
      find_ref_exchange p
        = (es.filter fun x => pyTruthy x.isQuantitativeReference).getLast?) := by
  constructor
  · intro env fuel d s r s2 q h
    unfold exchange_list exchange_listF at h
    obtain ⟨items, h1, h⟩ := bind_ok h
    exact exchangeLoop_qref env _ items s 0 [] Option.none r s2 q h rfl
  · intro p es hes
    unfold find_ref_exchange
    rw [hes]
    dsimp only
    rw [foldl_qref es Option.none]
    cases hz : (es.filter fun x => pyTruthy x.isQuantitativeReference).getLast? <;>
      simp

/-! ## Dense internal identifiers and the skip rule (C7) -/

theorem exchangeLoop_ids (env : Env) (prov : ProcCall) :
    ∀ (t : List PyVal) (s : SpecMap) (n : Nat) (acc : List Exchange)
      (q : Option Exchange) (r : List Exchange) (s2 : SpecMap)
      (q2 : Option Exchange),
      exchangeLoop env prov t s n acc q = .ok (r, s2, q2) →
      acc.map (fun x => x.internalId) = List.range' 1 acc.length →
      n = acc.length →
      r.map (fun x => x.internalId) = List.range' 1 r.length := by
  intro t
  induction t with
  | nil =>
    intro s n acc q r s2 q2 h hacc hn
    simp only [exchangeLoop, pure, Except.pure, Except.ok.injEq,
      Prod.mk.injEq] at h
    rw [← h.1]
    exact hacc
  | cons e t ih =>
    intro s n acc q r s2 q2 h hacc hn
    rw [exchangeLoop] at h
    obtain ⟨pr, h1, h⟩ := bind_ok h
    obtain ⟨ex1, s1⟩ := pr
    cases ex1 with
    | none => exact ih s1 n acc q r s2 q2 h hacc hn
    | some ex =>
      dsimp only at h
      refine ih _ _ _ _ r s2 q2 h ?_ ?_
      · rw [List.map_append, hacc, List.length_append, hn]
        simp [List.range'_1_concat, Nat.add_comm]
      · rw [List.length_append, hn]
        rfl

/-- C7 (amended): only an exchange entry that is missing entirely (Python
`None`) is skipped; every other entry that parses yields an Exchange object —
in particular one whose flow record is missing is retained with a null flow
reference — and the retained exchanges are numbered densely from 1 in input
order. -/
theorem c7_skip_rules :
    (∀ (env : Env) (fuel : Nat) (s : SpecMap),
      exchange env fuel PyVal.none s = .ok (Option.none, s)) ∧
    (∀ (env : Env) (fuel : Nat) (d : PyVal) (s : SpecMap) (o : Option Exchange)
      (s2 : SpecMap), exchange env fuel d s = .ok (o, s2) →
      (o = Option.none ↔ isNoneV d = true)) ∧
    (∀ (env : Env) (fuel : Nat) (d : PyVal) (s : SpecMap) (r : List Exchange)
      (s2 : SpecMap) (q : Option Exchange),
      exchange_list env fuel d s = .ok (r, s2, q) →
      r.map (fun x => x.internalId) = List.range' 1 r.length) := by
  refine ⟨fun env fuel s => rfl, ?_, ?_⟩
  · intro env fuel d s o s2 h
    cases d
    case none =>
      simp only [exchange, exchangeF, pure, Except.pure, Except.ok.injEq,
        Prod.mk.injEq] at h
      simp [← h.1, isNoneV]
    all_goals
      simp only [exchange, exchangeF] at h
      obtain ⟨dqe, h1, h⟩ := bind_ok h
      obtain ⟨fp, h2, h⟩ := bind_ok h
      obtain ⟨fl3, h3, h⟩ := bind_ok h
      obtain ⟨flr, s1, dmut⟩ := fl3
      dsimp only at h
      obtain ⟨unc, h4, h⟩ := bind_ok h
      obtain ⟨pr5, h5, h⟩ := bind_ok h
      obtain ⟨p1, s25, dprov⟩ := pr5
      dsimp only at h
      simp only [pure, Except.pure, Except.ok.injEq, Prod.mk.injEq] at h
      simp [← h.1, isNoneV]
  · intro env fuel d s r s2 q h
    unfold exchange_list exchange_listF at h
    obtain ⟨items, h1, h⟩ := bind_ok h
    exact exchangeLoop_ids env _ items s 0 [] Option.none r s2 q h rfl rfl

/-- C1 (amended): when a process description resolves to an identifier
already stored, `_process` does return the stored Process instance unchanged
(with its existing exchanges, whose reported reference is recomputed from
them) and leaves the registry untouched — but the `write` loop then appends
the `(id, object)` pair AGAIN, so the in-memory Process registry gains a
duplicate entry; one entry per identifier is only restored at save time,
because the dictionary `_make_entity_dict` builds is keyed by identifier
(its keys are pairwise distinct for every registry). -/
theorem c1_dedup_and_duplicate_append (env : Env) (fuel : Nat) (dd : PyDict)
    (s : SpecMap) (p : Process)
    (h1 : pyContains s.process.ids (processUid env (.dict dd)) = true)
    (h2 : regGet s.process.ids s.process.objs (processUid env (.dict dd))
      = some p) :
    process env (fuel + 1) (.dict dd) s = .ok (some p, s, find_ref_exchange p) ∧
    writeStep env (fuel + 1) s (.dict dd)
      = .ok ({s with process := s.process.push p.id p}, p,
          find_ref_exchange p) ∧
    ∀ (r : EntityReg Process), pkeys (make_entity_dict r) := by
  have hp : process env (fuel + 1) (.dict dd) s
      = .ok (some p, s, find_ref_exchange p) := by
    simp [process, processBody, h1, h2, pure, Except.pure]
  refine ⟨hp, ?_, fun r => pkeys_make_entity_dict r⟩
  simp [writeStep, hp, Bind.bind, Except.bind, pure, Except.pure]

/-- C10 (amended): the in-place `flowType` overwrite to `WASTE_FLOW` happens
exactly in the flow-creation branch: whenever the flow record is a dictionary
whose category path contains "waste" (case-insensitively) AND whose
identifier is not yet in the Flow registry, the caller's flow dictionary
comes back with its `flowType` value overwritten (the resolution of an
already registered flow leaves the record untouched, see the
counterexample). -/
theorem c10_waste_mutation_on_new (env : Env) (fp : Option FlowProperty)
    (s : SpecMap) (dd : PyDict) (c : String)
    (hcat : valD (.dict dd) ["category"] (.str "") = .str c)
    (hw : pyIn "waste" (pyLower c) = true)
    (hnew : pyContains s.flow.ids (val (.dict dd) ["id", "@id"]) = false) :
    (flow (.dict dd) fp s env).map (fun r => r.2.2)
      = .ok (.dict (dd.set "flowType" (.str "WASTE_FLOW"))) := by
  simp [flow, hcat, hnew, hw, Except.map, pure, Except.pure]

/-- C5 (amended): identifier preservation is type-dependent.  For a Process,
ANY supplied identifier — valid or not — is preserved verbatim and a fresh
identifier is derived only when none is supplied.  For a Flow, a supplied
identifier is preserved exactly when it is a canonical version-3 or
version-4 UUID and is otherwise silently regenerated from model type,
category and name; a Location identifier must be a version-3 UUID to
survive (it is regenerated from the code otherwise), and a DQSystem
identifier must be a version-4 UUID (regenerated from the type and name
otherwise).  No error is surfaced in any of these cases. -/
theorem c5_identifier_rules :
    (∀ (env : Env) (fuel : Nat) (dd : PyDict) (s : SpecMap) (u : PyVal)
      (p : Option Process) (s2 : SpecMap) (e2 : Option Exchange),
      val (.dict dd) ["@id"] = u → isNoneV u = false →
      pyContains s.process.ids u = false →
      process env (fuel + 1) (.dict dd) s = .ok (p, s2, e2) →
      p.map (fun x => x.id) = some u) ∧
    (∀ (env : Env) (dd : PyDict) (fp : Option FlowProperty) (s : SpecMap)
      (u : PyVal) (c : String) (r : Option Ref) (s2 : SpecMap) (d2 : PyVal),
      val (.dict dd) ["id", "@id"] = u →
      valD (.dict dd) ["category"] (.str "") = .str c →
      pyContains s.flow.ids u = false →
      flow (.dict dd) fp s env = .ok (r, s2, d2) →
      r.map (fun x => x.id)
        = some (if uid_is_valid u 3 || uid_is_valid u 4 then u
            else .str (uid env [mtFlow, c, pyStr (val (.dict dd) ["name"])]))) ∧
    (∀ (env : Env) (dd : PyDict) (s : SpecMap) (u : PyVal) (c : String)
      (r : Option Ref) (s2 : SpecMap),
      val (.dict dd) ["name"] = .str c → c ≠ "" →
      val (.dict dd) ["id", "@id"] = u →
      pyContains s.location.ids
        (if uid_is_valid u 3 then u else .str (uid env [mtLocation, c]))
        = false →
      location (.dict dd) s env = .ok (r, s2) →
      r.map (fun x => x.id)
        = some (if uid_is_valid u 3 then u
            else .str (uid env [mtLocation, c]))) ∧
    (∀ (env : Env) (fuel : Nat) (dd : PyDict) (q : PyDict) (s : SpecMap)
      (u : PyVal) (r : Option Ref) (s2 : SpecMap),
      find_dq fuel (.dict dd) "dqSystem" = .ok (.dict q) →
      val (.dict q) ["@id"] = u →
      pyContains s.dqsystem.ids u = false →
      dq_system fuel (.dict dd) s "dqSystem" env = .ok (r, s2) →
      r.map (fun x => x.id)
        = some (if uid_is_valid u 4 then u
            else .str (uid env [mtDqSystem, "dqSystem",
              pyStr (valD (.dict q) ["name"] (.str "none"))]))) := by
  refine ⟨?_, ?_, ?_, ?_⟩
  · intro env fuel dd s u p s2 e2 hid hnn hnc h
    have huid : processUid env (.dict dd) = u := by
      simp [processUid, hid, hnn]
    simp only [process, processBody, huid, hnc, Bool.false_eq_true, if_false] at h
    obtain ⟨pr1, h1, h⟩ := bind_ok h
    obtain ⟨loc, s1⟩ := pr1
    dsimp only at h
    obtain ⟨pr2, h2, h⟩ := bind_ok h
    obtain ⟨doc, s2x⟩ := pr2
    dsimp only at h
    obtain ⟨dqe, h3, h⟩ := bind_ok h
    obtain ⟨pr4, h4, h⟩ := bind_ok h
    obtain ⟨dqs, s3⟩ := pr4
    dsimp only at h
    obtain ⟨pr5, h5, h⟩ := bind_ok h
    obtain ⟨edqs, s4⟩ := pr5
    dsimp only at h
    obtain ⟨pr6, h6, h⟩ := bind_ok h
    obtain ⟨exs, s5, e_ref⟩ := pr6
    dsimp only at h
    simp only [pure, Except.pure, Except.ok.injEq, Prod.mk.injEq] at h
    rw [← h.1]
    rfl
  · intro env dd fp s u c r s2 d2 hid hcat hnc h
    simp only [flow, hid, hcat, hnc, Bool.false_eq_true, if_false, pure,
      Except.pure, Except.ok.injEq, Prod.mk.injEq] at h
    rw [← h.1]
    rfl
  · intro env dd s u c r s2 hname hcne hid hnc h
    simp only [location, hname, hid, hnc, Bool.false_eq_true, if_false, pure,
      Except.pure, Except.ok.injEq, Prod.mk.injEq, if_neg hcne] at h
    rw [← h.1]
    rfl
  · intro env fuel dd q s u r s2 hdq hid hnc h
    simp only [dq_system] at h
    rw [if_neg (by simp)] at h
    simp only [Bind.bind] at h
    obtain ⟨dq, h1, h⟩ := bind_ok h
    rw [hdq] at h1
    injection h1 with h1
    rw [← h1] at h
    dsimp only at h
    simp only [hid, hnc, Bool.false_eq_true, if_false, pure, Except.pure,
      Except.ok.injEq, Prod.mk.injEq] at h
    rw [← h.1]
    rfl

/-! ## Witnesses -/

/-- Witness for C1: with the stored `Coal` process in the registry, the
dedup branch of `_process` returns it, the write loop appends the duplicate
pair, and the save-time dictionary has pairwise distinct keys. -/
theorem c1_witness :
    process testEnv 2 c1desc c1s1 = .ok (some c1p, c1s1, find_ref_exchange c1p) ∧
    writeStep testEnv 2 c1s1 c1desc
      = .ok ({c1s1 with process := c1s1.process.push c1p.id c1p}, c1p,
          find_ref_exchange c1p) ∧
    pkeys (make_entity_dict (⟨[c1uid, c1uid], [c1p, c1p]⟩ : EntityReg Process)) := by
  have h := c1_dedup_and_duplicate_append testEnv 1 (pd [("name", .str "Coal")])
    c1s1 c1p rfl rfl
  exact ⟨h.1, h.2.1, h.2.2 _⟩

/-- Witness for C5: a valid version-4 Process identifier is preserved; a
bogus Flow identifier is regenerated; a valid version-3 Location identifier
is preserved; a bogus DQSystem identifier is regenerated. -/
theorem c5_witness :
    c5pa.map (fun x => x.id) = some (.str v4id) ∧
    c5rb.map (fun x => x.id)
      = some (if uid_is_valid (.str "bogus") 3 || uid_is_valid (.str "bogus") 4
          then .str "bogus"
          else .str (uid testEnv [mtFlow, "air",
            pyStr (val (.dict c5ddb) ["name"])])) ∧
    c5rc.map (fun x => x.id)
      = some (if uid_is_valid (.str v3id) 3 then .str v3id
          else .str (uid testEnv [mtLocation, "US"])) ∧
    c5rd.map (fun x => x.id)
      = some (if uid_is_valid (.str "zz") 4 then .str "zz"
          else .str (uid testEnv [mtDqSystem, "dqSystem",
            pyStr (valD (.dict c5q) ["name"] (.str "none"))])) :=
  ⟨c5_identifier_rules.1 testEnv 1 c5dda emptySpecMap (.str v4id) c5pa c5sa c5ea
      rfl rfl rfl rfl,
   c5_identifier_rules.2.1 testEnv c5ddb Option.none emptySpecMap (.str "bogus")
      "air" c5rb c5sb c5db rfl rfl rfl rfl,
   c5_identifier_rules.2.2.1 testEnv c5ddc emptySpecMap (.str v3id) "US" c5rc
      c5sc rfl (by decide) rfl rfl rfl,
   c5_identifier_rules.2.2.2 testEnv 2 c5ddd c5q emptySpecMap (.str "zz") c5rd
      c5sd rfl rfl rfl rfl⟩

/-- Witness for C6: on the two-flagged-exchanges input, the reported
reference is the last flagged entry of the built list, and
`_find_ref_exchange` agrees on the stored process. -/
theorem c6_witness :
    c6q = (c6r.filter fun x => pyTruthy x.isQuantitativeReference).getLast? ∧
    find_ref_exchange c6p
      = ((c6p.exchanges.getD []).filter
          fun x => pyTruthy x.isQuantitativeReference).getLast? :=
  ⟨c6_last_reference_wins.1 testEnv 1 c6desc emptySpecMap c6r c6s2 c6q rfl,
   c6_last_reference_wins.2 c6p (c6p.exchanges.getD []) rfl⟩

/-- Witness for C7: the missing-flow exchange is not skipped (the returned
option is not `None` exactly because the input record is not `None`), and the
internal identifiers of the built list are densely numbered from 1. -/
theorem c7_witness :
    (c7o = Option.none ↔ isNoneV c7ed = true) ∧
    c7r.map (fun x => x.internalId) = List.range' 1 c7r.length :=
  ⟨c7_skip_rules.2.1 testEnv 1 c7ed emptySpecMap c7o c7so rfl,
   c7_skip_rules.2.2 testEnv 1 c7desc emptySpecMap c7r c7s2 c7q rfl⟩

/-- Witness for C10: a fresh waste-category flow record comes back with the
`flowType` value overwritten in place. -/
theorem c10_witness :
    (flow (.dict c10dd) Option.none emptySpecMap testEnv).map (fun r => r.2.2)
      = .ok (.dict (c10dd.set "flowType" (.str "WASTE_FLOW"))) :=
  c10_waste_mutation_on_new testEnv Option.none emptySpecMap c10dd "Waste"
    rfl rfl rfl

end Elci

